import Mathlib

/-!
Verification of the heap allocator in `allocator.c` (the segregated
free-list version).  The C code is shallowly embedded: memory is a byte
map `Int → Nat`, 32-bit header fields and 64-bit free-list pointers are
read and written little-endian, and the allocator's global state
(`buckets`, `max_block`, `min_block` plus the segment bounds) is a Lean
structure.  All loops in the C code are given explicit fuel and return
`Option`; `none` means the fuel ran out, never a result of the program.
-/

set_option maxRecDepth 10000

/-- `ALIGNMENT` from allocator.c. -/
def ALIGNMENT : Nat := 8

/-- `SIZE_MASK 0x7ffffffc` from allocator.c. -/
def SIZE_MASK : Nat := 0x7ffffffc

/-- `FREE_MASK 0x80000000` from allocator.c. -/
def FREE_MASK : Nat := 0x80000000

/-- `PREV_FREE 0x00000001` from allocator.c. -/
def PREV_FREE : Nat := 0x00000001

/-- `NEXT_FREE 0x00000002` from allocator.c. -/
def NEXT_FREE : Nat := 0x00000002

/-- `INIT_MASK 0xfffffffe` from allocator.c. -/
def INIT_MASK : Nat := 0xfffffffe

/-- `NUM_BUCKETS 15` from allocator.c. -/
def NUM_BUCKETS : Nat := 15

/-- `PAGE_SIZE` from segment.h (the usual 4096, as in the spec's scenarios). -/
def PAGE_SIZE : Nat := 4096

/-- Byte-addressed memory.  Addresses are `Int` (64-bit pointers do not
overflow in practice, so plain integer arithmetic is faithful); each cell
holds one byte. -/
def Mem : Type := Int → Nat

/-- Read one byte. -/
def read8 (m : Mem) (a : Int) : Nat := m a % 256

/-- Write one byte. -/
def write8 (m : Mem) (a : Int) (v : Nat) : Mem :=
  fun x => if x = a then v % 256 else m x

/-- Little-endian 32-bit read, as the C `unsigned int` loads. -/
def read32 (m : Mem) (a : Int) : Nat :=
  read8 m a + 256 * (read8 m (a + 1) + 256 * (read8 m (a + 2) + 256 * read8 m (a + 3)))

/-- Little-endian 32-bit write, as the C `unsigned int` stores (truncates to 2^32). -/
def write32 (m : Mem) (a : Int) (v : Nat) : Mem :=
  write8 (write8 (write8 (write8 m a v) (a + 1) (v / 256)) (a + 2) (v / 256 ^ 2)) (a + 3)
    (v / 256 ^ 3)

/-- Little-endian 64-bit read of a stored pointer (`void *`).  The value is
returned as an `Int` address. -/
def read64 (m : Mem) (a : Int) : Int :=
  Int.ofNat (read8 m a + 256 * (read8 m (a + 1) + 256 * (read8 m (a + 2) +
    256 * (read8 m (a + 3) + 256 * (read8 m (a + 4) + 256 * (read8 m (a + 5) +
    256 * (read8 m (a + 6) + 256 * read8 m (a + 7))))))))

/-- Little-endian 64-bit write of a pointer value. -/
def write64 (m : Mem) (a : Int) (v : Int) : Mem :=
  let n := (v % (2 ^ 64 : Int)).toNat
  write8 (write8 (write8 (write8 (write8 (write8 (write8 (write8 m a n)
    (a + 1) (n / 256)) (a + 2) (n / 256 ^ 2)) (a + 3) (n / 256 ^ 3))
    (a + 4) (n / 256 ^ 4)) (a + 5) (n / 256 ^ 5)) (a + 6) (n / 256 ^ 6))
    (a + 7) (n / 256 ^ 7)

/-- `roundup` from allocator.c: `(sz + mult-1) & ~(mult-1)` in 64-bit
`size_t` arithmetic. -/
def roundup (sz mult : Nat) : Nat :=
  Nat.land ((sz + (mult - 1)) % 2 ^ 64) (2 ^ 64 - mult)

/-- `hdr_for_payload`: back up one 8-byte header from the payload. -/
def hdr_for_payload (payload : Int) : Int := payload - 8

/-- `payload_for_hdr`: advance past the 8-byte header. -/
def payload_for_hdr (header : Int) : Int := header + 8

/-- `set_payload_size`: store `value` in the `payloadsz` field of the header
of `payload` (first 32-bit word of the header). -/
def set_payload_size (m : Mem) (payload : Int) (value : Nat) : Mem :=
  write32 m (hdr_for_payload payload) value

/-- `set_prevpayload_size`: store `value` in the `prevpayloadsz` field
(second 32-bit word of the header). -/
def set_prevpayload_size (m : Mem) (payload : Int) (value : Nat) : Mem :=
  write32 m (hdr_for_payload payload + 4) value

/-- `get_size`: `payloadsz & SIZE_MASK`. -/
def get_size (m : Mem) (payload : Int) : Nat :=
  Nat.land (read32 m (hdr_for_payload payload)) SIZE_MASK

/-- `get_payloadsz`: the raw `payloadsz` field, flags included. -/
def get_payloadsz (m : Mem) (payload : Int) : Nat :=
  read32 m (hdr_for_payload payload)

/-- `get_prev_size`: `prevpayloadsz & SIZE_MASK`. -/
def get_prev_size (m : Mem) (payload : Int) : Nat :=
  Nat.land (read32 m (hdr_for_payload payload + 4)) SIZE_MASK

/-- Number of significant bits of `n`, computed with explicit fuel so that it
reduces in the kernel.  With fuel ≥ 32 it is the bit length of any 32-bit
value. -/
def bitLen : Nat → Nat → Nat
  | 0, _ => 0
  | _ + 1, 0 => 0
  | fuel + 1, n + 1 => bitLen fuel ((n + 1) / 2) + 1

/-- Count-leading-zeros on a 32-bit word, as `__builtin_clz` computes for a
nonzero argument (`__builtin_clz(0)` is undefined in C; this model returns 32
there). -/
def clz32 (v : Nat) : Nat := 32 - bitLen 32 v

/-- `cal_bucket` from allocator.c:
`bucket = 32 - clz(value); if (bucket >= 17) return 14; return bucket - 3;`.
The result is an `Int` because the C function returns a (possibly negative)
`int`. -/
def cal_bucket (value : Nat) : Int :=
  let bucket : Int := 32 - (clz32 value : Int)
  if bucket ≥ NUM_BUCKETS + 2 then NUM_BUCKETS - 1 else bucket - 3

/-- `set_next_in_list`: first pointer slot of a free block's payload. -/
def set_next_in_list (m : Mem) (payload : Int) (dest : Int) : Mem :=
  write64 m payload dest

/-- `set_prev_in_list`: second pointer slot of a free block's payload. -/
def set_prev_in_list (m : Mem) (payload : Int) (dest : Int) : Mem :=
  write64 m (payload + 8) dest

/-- `get_next_in_list`. -/
def get_next_in_list (m : Mem) (payload : Int) : Int := read64 m payload

/-- `get_prev_in_list`. -/
def get_prev_in_list (m : Mem) (payload : Int) : Int := read64 m (payload + 8)

/-- `get_next`: address of the next block's header (`payload + size`). -/
def get_next (m : Mem) (block : Int) : Int := block + (get_size m block : Int)

/-- `get_prev`: payload of the block directly below. -/
def get_prev (m : Mem) (block : Int) : Int :=
  hdr_for_payload block - (get_prev_size m block : Int)

/-- `set_prevfree`: OR `PREV_FREE` into the `payloadsz` of the block above. -/
def set_prevfree (m : Mem) (block : Int) : Mem :=
  write32 m (get_next m block) (Nat.lor (read32 m (get_next m block)) PREV_FREE)

/-- `set_nextfree`: OR `NEXT_FREE` into the `payloadsz` of the block below. -/
def set_nextfree (m : Mem) (block : Int) : Mem :=
  write32 m (hdr_for_payload (get_prev m block))
    (Nat.lor (read32 m (hdr_for_payload (get_prev m block))) NEXT_FREE)

/-- `set_free`: OR `FREE_MASK` into a block's own `payloadsz`. -/
def set_free (m : Mem) (payload : Int) : Mem :=
  set_payload_size m payload (Nat.lor (get_payloadsz m payload) FREE_MASK)

/-- `is_free` exactly as written in allocator.c:
`(get_size(payload) & FREE_MASK) != 0`.  Note the source masks with
`SIZE_MASK` first (inside `get_size`), so this is constantly `false`. -/
def is_free (m : Mem) (payload : Int) : Bool :=
  Nat.land (get_size m payload) FREE_MASK ≠ 0

/-- `has_next_free`: `payloadsz & NEXT_FREE`. -/
def has_next_free (m : Mem) (payload : Int) : Bool :=
  Nat.land (get_payloadsz m payload) NEXT_FREE ≠ 0

/-- `has_prev_free`: `payloadsz & PREV_FREE`. -/
def has_prev_free (m : Mem) (payload : Int) : Bool :=
  Nat.land (get_payloadsz m payload) PREV_FREE ≠ 0

/-- 32-bit unsigned subtraction (wraps modulo 2^32); both arguments are
assumed < 2^32 by every caller. -/
def sub32 (a b : Nat) : Nat := (a + (2 ^ 32 - b)) % 2 ^ 32

/-- Reinterpret a 32-bit unsigned value as a signed `int` (two's complement,
as gcc does for the `unsigned → int` conversion in `myrealloc`). -/
def toInt32 (w : Nat) : Int := if w < 2 ^ 31 then (w : Int) else (w : Int) - 2 ^ 32

/-- The allocator's global state: the byte memory, the 15 bucket heads
(`buckets` is indexed by `Int` since `cal_bucket` can return a negative
index, which in C would be an out-of-bounds access of the global array),
`max_block`/`min_block`, and the segment bounds used by the (spec-modelled)
page provider.  `segBase` is the fixed start of the heap segment, `segEnd`
its current break, and `segLimit` the point past which the provider refuses
to grow. -/
structure AState where
  mem : Mem
  buckets : Int → Int
  max_block : Int
  min_block : Int
  segBase : Int
  segEnd : Int
  segLimit : Int

/-- Modelled from the spec: `init_heap_segment(n_pages)` (segment.h is not in
the sources) resets the segment to `n_pages` pages and returns its base
header address, or NULL on failure.  Failure is modelled as the segment
limit being exceeded. -/
def init_heap_segment (st : AState) (npages : Nat) : AState × Int :=
  if st.segBase + ((npages * PAGE_SIZE : Nat) : Int) ≤ st.segLimit then
    ({ st with segEnd := st.segBase + ((npages * PAGE_SIZE : Nat) : Int) }, st.segBase)
  else (st, 0)

/-- Modelled from the spec: `extend_heap_segment(n_pages)` (segment.h is not
in the sources) extends the segment contiguously and returns the new
region's starting header address, or NULL when the segment refuses to
grow. -/
def extend_heap_segment (st : AState) (npages : Nat) : AState × Int :=
  if st.segEnd + ((npages * PAGE_SIZE : Nat) : Int) ≤ st.segLimit then
    ({ st with segEnd := st.segEnd + ((npages * PAGE_SIZE : Nat) : Int) }, st.segEnd)
  else (st, 0)

/-- `clear_buckets`: NULL out the 15 bucket heads. -/
def clear_buckets (bk : Int → Int) : Int → Int :=
  fun i => if 0 ≤ i ∧ i < (NUM_BUCKETS : Int) then 0 else bk i

/-- `remove_from_list`: unlink `curr` from the doubly linked list of bucket
`bucket_num`. -/
def remove_from_list (st : AState) (curr : Int) (bucket_num : Int) : AState :=
  let prev_free := get_prev_in_list st.mem curr
  let next_free := get_next_in_list st.mem curr
  let st1 :=
    if prev_free ≠ 0 then { st with mem := set_next_in_list st.mem prev_free next_free }
    else { st with buckets := fun i => if i = bucket_num then next_free else st.buckets i }
  if next_free ≠ 0 then { st1 with mem := set_prev_in_list st1.mem next_free prev_free }
  else st1

/-- `myinit`: reset the buckets, grab one page (`INIT_PAGES = 1`), lay out a
single free block spanning it, and put it in its bucket. -/
def myinit (st : AState) : AState × Bool :=
  let st := { st with buckets := clear_buckets st.buckets }
  let p := init_heap_segment st 1
  let st := p.1
  if p.2 = 0 then (st, false) else
  let first := payload_for_hdr p.2
  let st := { st with max_block := first, min_block := first }
  let m := set_payload_size st.mem first (Nat.lor (1 * PAGE_SIZE - 8) FREE_MASK)
  let m := set_prevpayload_size m first INIT_MASK
  let bucket := cal_bucket (get_size m first)
  let m := set_next_in_list m first 0
  let m := set_prev_in_list m first 0
  let bk := fun i => if i = bucket then first else st.buckets i
  ({ st with mem := m, buckets := bk }, true)

/-- Inner loop of `get_free_space`: scan one bucket's list for a block of at
least `requestedsz` bytes.  `some (some _)` is a hit (the block is already
unlinked), `some none` means the list is exhausted, `none` means fuel ran
out. -/
def gfs_walk : Nat → AState → Int → Int → Nat → Option (Option (AState × Int))
  | 0, _, _, _, _ => none
  | fuel + 1, st, i, curr, requestedsz =>
    if curr = 0 then some none
    else if get_size st.mem curr ≥ requestedsz then
      some (some (remove_from_list st curr i, curr))
    else gfs_walk fuel st i (get_next_in_list st.mem curr) requestedsz

/-- `get_free_space`: scan buckets `bucket, bucket+1, …, 14` for a fit.
The C function also reports the bucket number through an out-parameter that
`mymalloc` never reads afterwards; it is dropped here. -/
def get_free_space : Nat → AState → Int → Nat → Option (Option (AState × Int))
  | 0, _, _, _ => none
  | fuel + 1, st, i, requestedsz =>
    if i < (NUM_BUCKETS : Int) then
      match gfs_walk (fuel + 1) st i (st.buckets i) requestedsz with
      | none => none
      | some (some r) => some (some r)
      | some none => get_free_space fuel st (i + 1) requestedsz
    else some none

/-- `coalesce`: examine the `PREV_FREE`/`NEXT_FREE` flags of `ptr` and fuse
it with its free address-order neighbours, unlinking a neighbour from its
bucket when its payload is at least `2*sizeof(void*) = 16` bytes
(non-garbage).  Returns the possibly moved payload pointer. -/
def coalesce (st : AState) (ptr : Int) : AState × Int :=
  let prev_is_free := has_prev_free st.mem ptr
  let next_is_free := has_next_free st.mem ptr
  let ptr_size := get_size st.mem ptr
  if ¬prev_is_free ∧ ¬next_is_free then (st, ptr)
  else if ¬prev_is_free ∧ next_is_free then
    let next_block := payload_for_hdr (get_next st.mem ptr)
    let next_size := get_size st.mem next_block
    let bucket := cal_bucket next_size
    let st := if next_size ≥ 16 then remove_from_list st next_block bucket else st
    let new_size := (ptr_size + next_size + 8) % 2 ^ 32
    let m := set_payload_size st.mem ptr
      (Nat.lor new_size (Nat.land (get_payloadsz st.mem next_block) NEXT_FREE))
    let st := { st with mem := m }
    let st := if next_block < st.max_block then
        let m := set_prevpayload_size st.mem
          (payload_for_hdr (get_next st.mem next_block)) new_size
        { st with mem := m }
      else st
    let st := if next_block = st.max_block then { st with max_block := ptr } else st
    (st, ptr)
  else if ¬next_is_free ∧ prev_is_free then
    let prev_block := get_prev st.mem ptr
    let prev_size := get_size st.mem prev_block
    let bucket := cal_bucket prev_size
    let st := if prev_size ≥ 16 then remove_from_list st prev_block bucket else st
    let new_size := (ptr_size + prev_size + 8) % 2 ^ 32
    let m := set_payload_size st.mem prev_block
      (Nat.lor new_size (Nat.land (get_payloadsz st.mem prev_block) PREV_FREE))
    let st := { st with mem := m }
    let st := if ptr < st.max_block then
        let m := set_prevpayload_size st.mem
          (payload_for_hdr (get_next st.mem ptr)) new_size
        { st with mem := m }
      else st
    let st := if ptr = st.max_block then { st with max_block := prev_block } else st
    (st, prev_block)
  else
    let prev_block := get_prev st.mem ptr
    let prev_size := get_size st.mem prev_block
    let next_block := payload_for_hdr (get_next st.mem ptr)
    let next_size := get_size st.mem next_block
    let st := if next_size ≥ 16 then remove_from_list st next_block (cal_bucket next_size)
      else st
    let st := if prev_size ≥ 16 then remove_from_list st prev_block (cal_bucket prev_size)
      else st
    let new_size := (prev_size + 8 + ptr_size + 8 + next_size) % 2 ^ 32
    let m := set_payload_size st.mem prev_block
      (Nat.lor new_size (Nat.land (get_size st.mem prev_block) PREV_FREE))
    let st := { st with mem := m }
    let st := if next_block < st.max_block then
        let m := set_prevpayload_size st.mem
          (payload_for_hdr (get_next st.mem next_block)) new_size
        { st with mem := m }
      else st
    let st := if next_block = st.max_block then { st with max_block := prev_block } else st
    (st, prev_block)

/-- The walk of `myfree`'s insertion loop: starting from the bucket head,
find the first list element whose size is ≥ `sz`, returning the pair
`(prev, curr)` exactly as the C loop leaves those variables (`prev` starts
equal to the head). -/
def findSpot : Nat → Mem → Int → Int → Nat → Option (Int × Int)
  | 0, _, _, _, _ => none
  | fuel + 1, m, prev, curr, sz =>
    if curr = 0 then some (prev, curr)
    else if get_size m curr ≥ sz then some (prev, curr)
    else findSpot fuel m curr (get_next_in_list m curr) sz

/-- The bucket-insertion part of `myfree` (source lines 519–558): head
insert when the bucket is empty or its head is strictly larger, otherwise
walk to the first element of size ≥ the freed block's size and splice. -/
def myfree_insert (fuel : Nat) (st : AState) (ptr : Int) : Option AState :=
  let bucket := cal_bucket (get_size st.mem ptr)
  let bucketFirst := st.buckets bucket
  let curr := st.buckets bucket
  if curr = 0 then
    let m := set_prev_in_list st.mem ptr 0
    let m := set_next_in_list m ptr bucketFirst
    let m := if bucketFirst ≠ 0 then set_prev_in_list m bucketFirst ptr else m
    let bk := fun i => if i = bucket then ptr else st.buckets i
    some { st with mem := m, buckets := bk }
  else if get_size st.mem curr > get_size st.mem ptr then
    let m := set_prev_in_list st.mem ptr 0
    let m := set_next_in_list m ptr bucketFirst
    let m := if bucketFirst ≠ 0 then set_prev_in_list m bucketFirst ptr else m
    let bk := fun i => if i = bucket then ptr else st.buckets i
    some { st with mem := m, buckets := bk }
  else
    match findSpot fuel st.mem curr curr (get_size st.mem ptr) with
    | none => none
    | some pc =>
      let prev := pc.1
      let curr := pc.2
      let m := if curr ≠ 0 then set_prev_in_list st.mem curr ptr else st.mem
      let m := set_next_in_list m ptr curr
      let m := if prev ≠ 0 then set_prev_in_list m ptr prev else m
      let m := if prev ≠ 0 then set_next_in_list m prev ptr else m
      some { st with mem := m }

/-- `myfree`: coalesce, set the neighbour flags and the `FREE` bit, then
insert the block into its bucket in ascending size order. -/
def myfree (fuel : Nat) (st : AState) (ptr : Int) : Option AState :=
  if ptr = 0 then some st else
  let p := coalesce st ptr
  let st := p.1
  let ptr := p.2
  let st := if ptr < st.max_block then { st with mem := set_prevfree st.mem ptr } else st
  let st := if ptr ≠ st.min_block then { st with mem := set_nextfree st.mem ptr } else st
  let st := { st with mem := set_free st.mem ptr }
  let st := if ptr > st.max_block then { st with max_block := ptr } else st
  myfree_insert fuel st ptr

/-- `get_new_page`: extend the segment by enough pages for `requestedsz`,
lay the new region out as an allocated block plus (perfect fit / garbage /
freeable) tail, and return the page payload.  Note the C code does not
check `extend_heap_segment` for NULL: on failure it happily computes
`payload_for_hdr(NULL) = 8` and stores through it. -/
def get_new_page (fuel : Nat) (st : AState) (requestedsz : Nat) : Option (AState × Int) :=
  let npages := roundup (requestedsz + 8) PAGE_SIZE / PAGE_SIZE
  let p := extend_heap_segment st npages
  let st := p.1
  let page := payload_for_hdr p.2
  let st := { st with mem := set_payload_size st.mem page requestedsz }
  let st := { st with mem := set_prevpayload_size st.mem page (get_size st.mem st.max_block) }
  let st := if Nat.land (get_size st.mem st.max_block) FREE_MASK ≠ 0 then
      { st with mem := set_prevfree st.mem page } else st
  let size_left := npages * PAGE_SIZE - requestedsz - 8
  if size_left = 0 then some ({ st with max_block := page }, page)
  else if size_left < 24 then
    let next_free := payload_for_hdr (get_next st.mem page)
    let m := set_payload_size st.mem next_free
      (Nat.lor (npages * PAGE_SIZE - requestedsz - 16) FREE_MASK)
    let st := { st with mem := m }
    let st := { st with mem := set_prevpayload_size st.mem next_free requestedsz }
    let st := { st with mem := set_nextfree st.mem next_free }
    some ({ st with max_block := next_free }, page)
  else
    let curr := payload_for_hdr (get_next st.mem page)
    let st := { st with mem := set_payload_size st.mem curr (size_left - 8) }
    let st := { st with mem := set_prevpayload_size st.mem curr requestedsz }
    match myfree fuel st curr with
    | none => none
    | some st => some ({ st with max_block := curr }, page)

/-- Common tail of `mymalloc` (source lines 411–422): clear `NEXT_FREE` on
the block below `curr`, and (dead code, since `is_free` is constantly
false) re-set neighbour flags. -/
def mymalloc_tail (st : AState) (curr : Int) : AState × Int :=
  let st := if curr > st.min_block then
      let prev := get_prev st.mem curr
      let m := write32 st.mem (hdr_for_payload prev)
        (Nat.land (read32 st.mem (hdr_for_payload prev)) 0xfffffffd)
      let st := { st with mem := m }
      if is_free st.mem prev then { st with mem := set_prevfree st.mem prev } else st
    else st
  let st := if curr < st.max_block then
      let next := payload_for_hdr (get_next st.mem curr)
      if is_free st.mem next then { st with mem := set_nextfree st.mem next } else st
    else st
  (st, curr)

/-- The free-list-hit path of `mymalloc` (source lines 369–423): shrink the
found block `curr` to `requestedsz` and handle the leftover as a freeable
block, a garbage block, or a perfect fit. -/
def mymalloc_found (fuel : Nat) (st : AState) (curr : Int) (requestedsz : Nat) :
    Option (AState × Int) :=
    let tmp := get_size st.mem curr
    let st := { st with mem := set_payload_size st.mem curr requestedsz }
    -- `tmp - requestedsz` in the C; the search guarantees `requestedsz ≤ tmp`
    let remaining_size := tmp - requestedsz
    if remaining_size ≥ 24 then
      let next_free := payload_for_hdr (get_next st.mem curr)
      let st := { st with mem := set_payload_size st.mem next_free (sub32 remaining_size 8) }
      let st := { st with mem := set_prevpayload_size st.mem next_free requestedsz }
      let st := if next_free < st.max_block then
          let m := set_prevpayload_size st.mem
            (payload_for_hdr (get_next st.mem next_free)) (get_size st.mem next_free)
          { st with mem := set_prevfree m next_free }
        else st
      let st := if next_free > st.max_block then { st with max_block := next_free } else st
      match myfree fuel st next_free with
      | none => none
      | some st => some (mymalloc_tail st curr)
    else if requestedsz ≠ tmp then
      let next_free := payload_for_hdr (get_next st.mem curr)
      let m := set_payload_size st.mem next_free
        (Nat.lor (sub32 remaining_size 8) FREE_MASK)
      let st := { st with mem := m }
      let st := { st with mem := set_prevpayload_size st.mem next_free requestedsz }
      let st :=
        if next_free > st.max_block then { st with max_block := next_free }
        else if next_free < st.max_block then
          let m := set_prevpayload_size st.mem
            (payload_for_hdr (get_next st.mem next_free)) (get_size st.mem next_free)
          let m := set_prevfree m next_free
          let st := { st with mem := m }
          if is_free st.mem (payload_for_hdr (get_next st.mem next_free)) then
            let m := set_payload_size st.mem next_free
              (Nat.lor (get_size st.mem next_free) NEXT_FREE)
            { st with mem := m }
          else st
        else st
      let st := if next_free > st.min_block then { st with mem := set_nextfree st.mem next_free }
        else st
      let st := (coalesce st next_free).1
      some (mymalloc_tail st curr)
    else
      let st := if curr < st.max_block then
          let a := curr + (read32 st.mem (hdr_for_payload curr) : Int)
          let m := write32 st.mem a (Nat.land (read32 st.mem a) 0xfffffffe)
          { st with mem := m }
        else st
      some (mymalloc_tail st curr)

/-- `mymalloc`: round the request up (minimum 16), search the segregated
free lists, otherwise get a new page; a found block is finished by
`mymalloc_found`. -/
def mymalloc (fuel : Nat) (st : AState) (requestedsz : Nat) : Option (AState × Int) :=
  if requestedsz = 0 then some (st, 0) else
  let requestedsz := roundup requestedsz ALIGNMENT
  let requestedsz := if requestedsz < 16 then 16 else requestedsz
  let bucket := cal_bucket (requestedsz % 2 ^ 32)
  match get_free_space fuel st bucket requestedsz with
  | none => none
  | some none => get_new_page fuel st requestedsz
  | some (some r) => mymalloc_found fuel r.1 r.2 requestedsz

/-- `memmove(dst, src, n)`: the destination range takes the source bytes of
the pre-call memory (memory-move semantics). -/
def memmove (m : Mem) (dst src : Int) (n : Nat) : Mem :=
  fun a => if dst ≤ a ∧ a < dst + (n : Int) then m (src + (a - dst)) else m a

/-- The `malloc + memmove + myfree` fallback path of `myrealloc`. -/
def myrealloc_fallback (fuel : Nat) (st : AState) (oldptr : Int) (oldsz new_size : Nat) :
    Option (AState × Int) :=
  match mymalloc fuel st new_size with
  | none => none
  | some r =>
    let st := r.1
    let newptr := r.2
    let m := memmove st.mem newptr oldptr (if oldsz < new_size then oldsz else new_size)
    let st := { st with mem := m }
    match myfree fuel st oldptr with
    | none => none
    | some st => some (st, newptr)

/-- `myrealloc`: early-return when `roundup(newsz, 8)` equals the current
size (note: this comparison happens before the clamp to 16); try to grow in
place into a free forward neighbour; otherwise allocate, copy, free. -/
def myrealloc (fuel : Nat) (st : AState) (oldptr : Int) (newsz : Nat) : Option (AState × Int) :=
  let oldsz := get_size st.mem oldptr
  let new_size := roundup (newsz % 2 ^ 32) ALIGNMENT % 2 ^ 32
  if new_size = oldsz then some (st, oldptr) else
  let new_size := if new_size < 16 then 16 else new_size
  if oldsz < new_size ∧ has_next_free st.mem oldptr ∧ oldptr < st.max_block then
    let next_block := payload_for_hdr (get_next st.mem oldptr)
    let nextsz := get_size st.mem next_block
    -- `int leftover = nextsz + oldsz - new_size` in 32-bit unsigned
    -- arithmetic reinterpreted as a signed int
    let w := ((nextsz + oldsz) % 2 ^ 32 + (2 ^ 32 - new_size)) % 2 ^ 32
    if toInt32 w ≥ 16 then
      let st := remove_from_list st next_block (cal_bucket nextsz)
      let remainder := payload_for_hdr (oldptr + (new_size : Int))
      let st := { st with mem := set_payload_size st.mem remainder w }
      let st := { st with mem := set_prevpayload_size st.mem remainder new_size }
      let m := write32 st.mem (hdr_for_payload remainder)
        (Nat.lor (read32 st.mem (hdr_for_payload remainder))
          (Nat.land (get_payloadsz st.mem next_block) NEXT_FREE))
      let st := { st with mem := m }
      let m := write32 st.mem (hdr_for_payload oldptr)
        (Nat.lor (Nat.lor new_size NEXT_FREE)
          (Nat.land (get_payloadsz st.mem oldptr) PREV_FREE))
      let st := { st with mem := m }
      let st := if remainder < st.max_block then
          let m := set_prevpayload_size st.mem
            (payload_for_hdr (get_next st.mem remainder)) (get_size st.mem remainder)
          { st with mem := m }
        else st
      let st := if remainder > st.max_block then { st with max_block := remainder } else st
      match myfree fuel st remainder with
      | none => none
      | some st => some (st, oldptr)
    else myrealloc_fallback fuel st oldptr oldsz new_size
  else myrealloc_fallback fuel st oldptr oldsz new_size

/-- One user-facing operation after `myinit`. -/
inductive AllocOp where
  | alloc (n : Nat)
  | free (p : Int)
  | realloc (p : Int) (n : Nat)

/-- Run one operation, keeping only the state. -/
def runOp (fuel : Nat) (st : AState) : AllocOp → Option AState
  | .alloc n => (mymalloc fuel st n).map Prod.fst
  | .free p => myfree fuel st p
  | .realloc p n => (myrealloc fuel st p n).map Prod.fst

/-- Run a sequence of operations. -/
def runOps (fuel : Nat) : AState → List AllocOp → Option AState
  | st, [] => some st
  | st, op :: ops =>
    match runOp fuel st op with
    | none => none
    | some st => runOps fuel st ops

/-- A pre-`myinit` state: zeroed memory, NULL buckets, segment starting at
address 4096 with the given growth limit. -/
def initialState (limit : Int) : AState :=
  { mem := fun _ => 0, buckets := fun _ => 0, max_block := 0, min_block := 0,
    segBase := 4096, segEnd := 4096, segLimit := limit }

/-- A freshly initialised heap whose segment can grow to a megabyte. -/
def heap0 : AState := (myinit (initialState (1 <<< 20))).1

/-- A freshly initialised heap whose segment is capped at one page, so that
`extend_heap_segment` always refuses. -/
def heap1 : AState := (myinit (initialState 8192)).1

/-- The state reached from `heap0` by a sequence of operations (defaulting
to `heap0` itself if the fuel were to run out, which it does not on the
traces used below). -/
def traceState (ops : List AllocOp) : AState := (runOps 300 heap0 ops).getD heap0

/-- State for claim C2: the single page of `heap1` fully allocated, so the
next allocation must ask the segment for another page and be refused. -/
def C2state : AState := (runOps 300 heap1 [.alloc 4088]).getD heap1

/-- State for claim C4: four allocations (two of payload size 104 separated
by size-16 spacers) and then the two size-104 blocks freed.  They are not
address-adjacent, so no coalescing happens, and both land in bucket 4. -/
def C4state : AState :=
  traceState [.alloc 104, .alloc 16, .alloc 104, .alloc 16, .free 4104, .free 4240]

/-- State for claim C7: one block of payload size 16 allocated at 4104. -/
def C7state : AState := traceState [.alloc 16]

/-- State for claim C9: a fresh heap whose bytes just below address NULL
happen to decode to 16 — memory the allocator does not own, whose content
`myrealloc(NULL, ·)` nevertheless reads. -/
def C9state : AState := { heap0 with mem := write32 heap0.mem (-8) 16 }

/-- Operation sequence used as the C10 witness trace. -/
def C10ops : List AllocOp := [.alloc 100, .free 4104, .alloc 24, .alloc 4000, .free 4136]

/-- The state after running `C10ops` from `heap0`. -/
def C10state : AState := (runOps 300 heap0 C10ops).getD heap0

/-- Follow the `next` pointers of a free list `n` hops from `p` (stopping at
NULL).  A well-formed NULL-terminated list reaches 0 after finitely many
hops. -/
def followNext (m : Mem) : Nat → Int → Int
  | 0, p => p
  | n + 1, p => if p = 0 then 0 else followNext m n (get_next_in_list m p)

/-- Concrete heap for the C6 witness: three adjacent blocks at 1032
(16 bytes, free), 1056 (16 bytes, allocated, both neighbour flags set) and
1080 (32 bytes, free), with singleton bucket lists. -/
def C6wit : AState :=
  { mem := write32 (write32 (write32 (write32 (write32 (write32 (write32 (write32 (write32
      (fun _ => 0)
      1000 18) 1024 (16 + 2147483648)) 1028 16) 1048 19) 1052 16)
      1072 (32 + 2147483648)) 1076 16) 1112 17) 1116 32,
    buckets := fun i => if i = 2 then 1032 else if i = 3 then 1080 else 0,
    max_block := 1120, min_block := 1008,
    segBase := 512, segEnd := 4608, segLimit := 8192 }

/-- Concrete heap for the C5 witness: an allocated 16-byte block at 1032
with a free 64-byte neighbour at 1056. -/
def C5wit : AState :=
  { mem := write32 (write32 (write32 (write32 (write32 (write32 (write32 (fun _ => 0)
      1000 16) 1024 18) 1028 16) 1048 (64 + 2147483648)) 1052 16) 1120 17) 1124 64,
    buckets := fun i => if i = 4 then 1056 else 0,
    max_block := 1128, min_block := 1008,
    segBase := 512, segEnd := 4608, segLimit := 8192 }

/-- A freshly initialised heap whose segment may grow to `2^33` bytes,
enough to grant a 2 GiB request. -/
def C8big : AState := (myinit (initialState (1 <<< 33))).1

/-- The heap state after requesting `2^31` bytes from `C8big`. -/
def C8res : AState := ((mymalloc 100 C8big (2 ^ 31)).map Prod.fst).getD C8big

theorem bitLen_le (f n : Nat) : bitLen f n ≤ f := by
  induction f generalizing n with
  | zero => simp [bitLen]
  | succ f ih =>
    cases n with
    | zero => simp [bitLen]
    | succ n =>
      have := ih ((n + 1) / 2)
      simp only [bitLen]
      omega

theorem lt_bitLen (f k n : Nat) (h1 : 2 ^ k ≤ n) (h2 : k < f) : k < bitLen f n := by
  induction k generalizing f n with
  | zero =>
    cases f with
    | zero => omega
    | succ f =>
      cases n with
      | zero => simp at h1
      | succ n => simp [bitLen]
  | succ k ih =>
    cases f with
    | zero => omega
    | succ f =>
      cases n with
      | zero =>
        have : (0 : Nat) < 2 ^ (k + 1) := Nat.pos_pow_of_pos _ (by omega)
        omega
      | succ n =>
        have hdiv : 2 ^ k ≤ (n + 1) / 2 := by
          rw [Nat.le_div_iff_mul_le (by omega)]
          calc 2 ^ k * 2 = 2 ^ (k + 1) := by ring
          _ ≤ n + 1 := h1
        have := ih f ((n + 1) / 2) hdiv (by omega)
        simp only [bitLen]
        omega

theorem bitLen_le_of_lt (f k n : Nat) (h : n < 2 ^ k) : bitLen f n ≤ k := by
  induction k generalizing f n with
  | zero =>
    interval_cases n
    cases f <;> simp [bitLen]
  | succ k ih =>
    cases f with
    | zero => simp [bitLen]
    | succ f =>
      cases n with
      | zero => simp [bitLen]
      | succ n =>
        have hdiv : (n + 1) / 2 < 2 ^ k := by
          rw [Nat.div_lt_iff_lt_mul (by omega)]
          calc n + 1 < 2 ^ (k + 1) := h
          _ = 2 ^ k * 2 := by ring
        have := ih f ((n + 1) / 2) hdiv
        simp only [bitLen]
        omega

/-- C3 counterexample: the claim's concrete examples contradict the code:
`cal_bucket` sends size 16 to bucket 2 (not 1) and size 32 to bucket 3
(not 2). -/
theorem C3_counterexample :
    cal_bucket 16 = 2 ∧ cal_bucket 16 ≠ 1 ∧ cal_bucket 32 = 3 ∧ cal_bucket 32 ≠ 2 := by
  decide

/-- C3 (amended): for every 32-bit size `s ≥ 1`, the bucket index computed by
`cal_bucket` equals `min(31 − clz(s) − 2, 14)`; in particular size 16 maps to
bucket 2, size 32 to bucket 3, and every size ≥ 2^16 to bucket 14. -/
theorem C3_bucket_formula (s : Nat) (h1 : 1 ≤ s) (_h2 : s < 2 ^ 32) :
    cal_bucket s = min ((31 : Int) - clz32 s - 2) 14 ∧
    cal_bucket 16 = 2 ∧ cal_bucket 32 = 3 ∧
    (2 ^ 16 ≤ s → cal_bucket s = 14) := by
  have hle : bitLen 32 s ≤ 32 := bitLen_le 32 s
  have hpos : 0 < bitLen 32 s := lt_bitLen 32 0 s (by simpa using h1) (by omega)
  have hcast : ((32 - bitLen 32 s : Nat) : Int) = 32 - (bitLen 32 s : Int) := by omega
  refine ⟨?_, by decide, by decide, fun hs => ?_⟩
  · simp only [cal_bucket, clz32, NUM_BUCKETS, hcast]
    rw [min_def]
    split_ifs <;> push_cast <;> omega
  · have h17 : 16 < bitLen 32 s := lt_bitLen 32 16 s hs (by omega)
    simp only [cal_bucket, clz32, NUM_BUCKETS, hcast]
    rw [if_pos (by push_cast; omega)]
    norm_num

/-- Witness for C3 at `s = 16`. -/
theorem C3_bucket_formula_witness :
    (1 ≤ 16 ∧ 16 < 2 ^ 32) ∧
    (cal_bucket 16 = min ((31 : Int) - clz32 16 - 2) 14 ∧ cal_bucket 16 = 2 ∧
      cal_bucket 32 = 3 ∧ (2 ^ 16 ≤ 16 → cal_bucket 16 = 14)) :=
  ⟨⟨by decide, by decide⟩, C3_bucket_formula 16 (by decide) (by decide)⟩

/-- C7 counterexample: in `C7state` the payload at 4104 has current size 16
and `req = max(16, round_up(8, 8)) = 16` equals it, yet `realloc(4104, 8)`
does not return 4104 — it takes the copy-and-free path and returns 4128,
because the code compares `round_up(new_size, 8) = 8` against the current
size before clamping to 16. -/
theorem C7_counterexample :
    get_size C7state.mem 4104 = 16 ∧
    max 16 (roundup 8 8) = 16 ∧
    (myrealloc 300 C7state 4104 8).map Prod.snd = some 4128 ∧
    ((4128 : Int) ≠ 4104) := by
  decide

/-- C7 (amended): whenever `round_up(new_size, 8)` — before the clamp to
16 — equals the current masked payload size of `p`, `realloc(p, new_size)`
returns `p` and leaves the entire allocator state unchanged. -/
theorem C7_realloc_same_size (fuel : Nat) (st : AState) (p : Int) (n : Nat)
    (h : roundup (n % 2 ^ 32) ALIGNMENT % 2 ^ 32 = get_size st.mem p) :
    myrealloc fuel st p n = some (st, p) := by
  unfold myrealloc
  dsimp only
  rw [if_pos h]

/-- Witness for C7 at `C7state`, `p = 4104`, `new_size = 16`. -/
theorem C7_realloc_same_size_witness :
    roundup (16 % 2 ^ 32) ALIGNMENT % 2 ^ 32 = get_size C7state.mem 4104 ∧
    myrealloc 300 C7state 4104 16 = some (C7state, 4104) :=
  ⟨by decide, C7_realloc_same_size 300 C7state 4104 16 (by decide)⟩

/-- C2: the size-0 half of the claim holds (`alloc(0)` returns NULL with the
state untouched), but the out-of-memory half fails on the code: in
`C2state` no free block fits and the segment refuses to grow
(`extend_heap_segment` returns NULL), yet `mymalloc` returns
`payload_for_hdr(NULL) = 8`, not NULL, after storing a header through the
null-based pointer. -/
theorem C2_extend_fail_divergence :
    (∀ fuel st, mymalloc fuel st 0 = some (st, 0)) ∧
    (runOps 300 heap1 [.alloc 4088]).isSome = true ∧
    (mymalloc 300 C2state 16).map Prod.snd = some 8 ∧ ((8 : Int) ≠ 0) :=
  ⟨fun _ _ => rfl, by decide, by decide, by decide⟩

/-- C9: `myrealloc(NULL, n)` does not behave like `alloc(n)`.  The code
reads the header 8 bytes below NULL; in `C9state` those (unowned) bytes
decode to 16, so `realloc(NULL, 16)` returns NULL and allocates nothing,
while `alloc(16)` on the same state returns the valid payload 4104. -/
theorem C9_realloc_null_divergence :
    myrealloc 300 C9state 0 16 = some (C9state, 0) ∧
    (mymalloc 300 C9state 16).map Prod.snd = some 4104 ∧ ((4104 : Int) ≠ 0) :=
  ⟨rfl, by decide, by decide⟩

/-- C4: freeing a block whose size equals the current bucket head's size
(here the two non-adjacent size-104 blocks of `C4state`) mislinks the
bucket into a two-node cycle: the head 4104 and the newly freed 4240 point
at each other, so the bucket's list is not a NULL-terminated (well-formed)
sorted list — following `next` never reaches NULL. -/
theorem C4_insert_cycle :
    C4state.buckets 4 = 4104 ∧
    get_next_in_list C4state.mem 4104 = 4240 ∧
    get_next_in_list C4state.mem 4240 = 4104 ∧
    get_size C4state.mem 4104 = 104 ∧
    get_size C4state.mem 4240 = 104 ∧
    (∀ n : Nat, followNext C4state.mem n (C4state.buckets 4) ≠ 0) := by
  have h : C4state.buckets 4 = 4104 ∧
      get_next_in_list C4state.mem 4104 = 4240 ∧
      get_next_in_list C4state.mem 4240 = 4104 ∧
      get_size C4state.mem 4104 = 104 ∧
      get_size C4state.mem 4240 = 104 := by decide
  obtain ⟨h1, h2, h3, h4, h5⟩ := h
  refine ⟨h1, h2, h3, h4, h5, ?_⟩
  rw [h1]
  have key : ∀ n : Nat, ∀ p : Int, p = 4104 ∨ p = 4240 →
      followNext C4state.mem n p ≠ 0 := by
    intro n
    induction n with
    | zero => rintro p (rfl | rfl) <;> simp [followNext]
    | succ n ih =>
      rintro p (rfl | rfl)
      · rw [show ((4104 : Int)) = 4104 from rfl]
        simp only [followNext]
        rw [if_neg (by decide), h2]
        exact ih 4240 (Or.inr rfl)
      · simp only [followNext]
        rw [if_neg (by decide), h3]
        exact ih 4104 (Or.inl rfl)
  exact fun n => key n 4104 (Or.inl rfl)

theorem remove_from_list_min_block (st : AState) (c b : Int) :
    (remove_from_list st c b).min_block = st.min_block := by
  unfold remove_from_list
  dsimp only
  simp [apply_ite AState.min_block]

theorem coalesce_min_block (st : AState) (p : Int) :
    (coalesce st p).1.min_block = st.min_block := by
  unfold coalesce
  dsimp only
  simp [apply_ite (Prod.fst : AState × Int → AState), apply_ite AState.min_block,
    remove_from_list_min_block]

theorem myfree_insert_min_block (fuel : Nat) (st : AState) (p : Int) (st' : AState)
    (h : myfree_insert fuel st p = some st') : st'.min_block = st.min_block := by
  unfold myfree_insert at h
  dsimp only at h
  split at h
  · simp only [Option.some.injEq] at h
    rw [← h]
  · split at h
    · simp only [Option.some.injEq] at h
      rw [← h]
    · split at h
      · exact absurd h (by simp)
      · simp only [Option.some.injEq] at h
        rw [← h]

theorem myfree_min_block (fuel : Nat) (st : AState) (p : Int) (st' : AState)
    (h : myfree fuel st p = some st') : st'.min_block = st.min_block := by
  unfold myfree at h
  split at h
  · simp only [Option.some.injEq] at h
    rw [← h]
  · dsimp only at h
    have h2 := myfree_insert_min_block _ _ _ _ h
    rw [h2]
    simp only [apply_ite AState.min_block, coalesce_min_block, ite_self]

theorem gfs_walk_min_block : ∀ (fuel : Nat) (st : AState) (i c : Int) (r : Nat)
    (st' : AState) (q : Int), gfs_walk fuel st i c r = some (some (st', q)) →
    st'.min_block = st.min_block := by
  intro fuel
  induction fuel with
  | zero => intro st i c r st' q h; simp [gfs_walk] at h
  | succ fuel ih =>
    intro st i c r st' q h
    simp only [gfs_walk] at h
    split at h
    · simp at h
    · split at h
      · simp only [Option.some.injEq, Prod.mk.injEq] at h
        rw [← h.1]
        exact remove_from_list_min_block st c i
      · exact ih st i (get_next_in_list st.mem c) r st' q h

theorem get_free_space_min_block : ∀ (fuel : Nat) (st : AState) (i : Int) (r : Nat)
    (st' : AState) (q : Int), get_free_space fuel st i r = some (some (st', q)) →
    st'.min_block = st.min_block := by
  intro fuel
  induction fuel with
  | zero => intro st i r st' q h; simp [get_free_space] at h
  | succ fuel ih =>
    intro st i r st' q h
    simp only [get_free_space] at h
    split at h
    · split at h
      · exact absurd h (by simp)
      · rename_i r' heq
        simp only [Option.some.injEq] at h
        rw [h] at heq
        exact gfs_walk_min_block _ st i (st.buckets i) r st' q heq
      · exact ih st (i + 1) r st' q h
    · simp at h

theorem init_heap_segment_min_block (st : AState) (n : Nat) :
    (init_heap_segment st n).1.min_block = st.min_block := by
  unfold init_heap_segment
  simp only [apply_ite (Prod.fst : AState × Int → AState), apply_ite AState.min_block]
  simp only [ite_self]

theorem extend_heap_segment_min_block (st : AState) (n : Nat) :
    (extend_heap_segment st n).1.min_block = st.min_block := by
  unfold extend_heap_segment
  simp only [apply_ite (Prod.fst : AState × Int → AState), apply_ite AState.min_block]
  simp only [ite_self]

theorem get_new_page_min_block (fuel : Nat) (st : AState) (r : Nat) (st' : AState) (q : Int)
    (h : get_new_page fuel st r = some (st', q)) : st'.min_block = st.min_block := by
  unfold get_new_page at h
  dsimp only at h
  split at h
  · simp only [Option.some.injEq, Prod.mk.injEq] at h
    rw [← h.1]
    simp only [apply_ite AState.min_block, extend_heap_segment_min_block, ite_self]
  · split at h
    · simp only [Option.some.injEq, Prod.mk.injEq] at h
      rw [← h.1]
      simp only [apply_ite AState.min_block, extend_heap_segment_min_block, ite_self]
    · split at h
      · exact absurd h (by simp)
      · rename_i st2 heq
        simp only [Option.some.injEq, Prod.mk.injEq] at h
        rw [← h.1]
        show st2.min_block = st.min_block
        rw [myfree_min_block _ _ _ _ heq]
        simp only [apply_ite AState.min_block, extend_heap_segment_min_block, ite_self]

theorem mymalloc_tail_min_block (st : AState) (c : Int) :
    (mymalloc_tail st c).1.min_block = st.min_block := by
  unfold mymalloc_tail
  dsimp only
  simp [apply_ite (Prod.fst : AState × Int → AState), apply_ite AState.min_block]

theorem mymalloc_found_min_block (fuel : Nat) (st : AState) (c : Int) (r : Nat)
    (st' : AState) (q : Int) (h : mymalloc_found fuel st c r = some (st', q)) :
    st'.min_block = st.min_block := by
  unfold mymalloc_found at h
  dsimp only at h
  split at h
  · split at h
    · exact absurd h (by simp)
    · rename_i st2 heq
      simp only [Option.some.injEq] at h
      have h1 := congrArg Prod.fst h
      dsimp only at h1
      rw [← h1, mymalloc_tail_min_block, myfree_min_block _ _ _ _ heq]
      simp only [apply_ite AState.min_block, ite_self]
  · split at h
    · simp only [Option.some.injEq] at h
      have h1 := congrArg Prod.fst h
      dsimp only at h1
      rw [← h1, mymalloc_tail_min_block, coalesce_min_block]
      simp only [apply_ite AState.min_block, ite_self]
    · simp only [Option.some.injEq] at h
      have h1 := congrArg Prod.fst h
      dsimp only at h1
      rw [← h1, mymalloc_tail_min_block]
      simp only [apply_ite AState.min_block, ite_self]

theorem mymalloc_min_block (fuel : Nat) (st : AState) (r : Nat) (st' : AState) (q : Int)
    (h : mymalloc fuel st r = some (st', q)) : st'.min_block = st.min_block := by
  unfold mymalloc at h
  split at h
  · simp only [Option.some.injEq, Prod.mk.injEq] at h
    rw [← h.1]
  · dsimp only at h
    split at h
    · exact absurd h (by simp)
    · exact get_new_page_min_block _ _ _ _ _ h
    · rename_i r' heq
      rw [mymalloc_found_min_block _ _ _ _ _ _ h]
      exact get_free_space_min_block _ _ _ _ _ _ (by rw [heq])

theorem myrealloc_fallback_min_block (fuel : Nat) (st : AState) (p : Int)
    (oldsz nsz : Nat) (st' : AState) (q : Int)
    (h : myrealloc_fallback fuel st p oldsz nsz = some (st', q)) :
    st'.min_block = st.min_block := by
  unfold myrealloc_fallback at h
  split at h
  · exact absurd h (by simp)
  · rename_i r heq
    dsimp only at h
    split at h
    · exact absurd h (by simp)
    · rename_i st2 heq2
      simp only [Option.some.injEq, Prod.mk.injEq] at h
      rw [← h.1, myfree_min_block _ _ _ _ heq2]
      show r.1.min_block = st.min_block
      exact mymalloc_min_block _ _ _ _ _ (by rw [heq])




theorem myrealloc_min_block (fuel : Nat) (st : AState) (p : Int) (n : Nat)
    (st' : AState) (q : Int) (h : myrealloc fuel st p n = some (st', q)) :
    st'.min_block = st.min_block := by
  unfold myrealloc at h
  dsimp only at h
  split at h
  · obtain ⟨h1, h2⟩ : st = st' ∧ p = q := by simpa using h
    rw [← h1]
  · split at h
    · split at h
      · split at h
        · split at h
          · simp at h
          · rename_i st2 heq
            obtain ⟨h1, h2⟩ : st2 = st' ∧ p = q := by simpa using h
            rw [← h1, myfree_min_block _ _ _ _ heq]
            simp only [apply_ite AState.min_block, remove_from_list_min_block, ite_self]
        · exact myrealloc_fallback_min_block _ _ _ _ _ _ _ h
      · exact myrealloc_fallback_min_block _ _ _ _ _ _ _ h
    · split at h
      · split at h
        · split at h
          · simp at h
          · rename_i st2 heq
            obtain ⟨h1, h2⟩ : st2 = st' ∧ p = q := by simpa using h
            rw [← h1, myfree_min_block _ _ _ _ heq]
            simp only [apply_ite AState.min_block, remove_from_list_min_block, ite_self]
        · exact myrealloc_fallback_min_block _ _ _ _ _ _ _ h
      · exact myrealloc_fallback_min_block _ _ _ _ _ _ _ h

theorem runOp_min_block (fuel : Nat) (st : AState) (op : AllocOp) (st' : AState)
    (h : runOp fuel st op = some st') : st'.min_block = st.min_block := by
  cases op with
  | alloc n =>
    simp only [runOp, Option.map_eq_some'] at h
    obtain ⟨⟨s, q⟩, hsq, rfl⟩ := h
    exact mymalloc_min_block _ _ _ _ _ hsq
  | free p => exact myfree_min_block _ _ _ _ h
  | realloc p n =>
    simp only [runOp, Option.map_eq_some'] at h
    obtain ⟨⟨s, q⟩, hsq, rfl⟩ := h
    exact myrealloc_min_block _ _ _ _ _ _ hsq

theorem runOps_min_block : ∀ (ops : List AllocOp) (fuel : Nat) (st st' : AState),
    runOps fuel st ops = some st' → st'.min_block = st.min_block := by
  intro ops
  induction ops with
  | nil =>
    intro fuel st st' h
    simp only [runOps, Option.some.injEq] at h
    rw [← h]
  | cons op ops ih =>
    intro fuel st st' h
    simp only [runOps] at h
    split at h
    · exact absurd h (by simp)
    · rename_i st1 heq
      rw [ih fuel st1 st' h]
      exact runOp_min_block _ _ _ _ heq

theorem myinit_success_min_block (st stI : AState) (h : myinit st = (stI, true)) :
    stI.min_block = st.segBase + 8 := by
  unfold myinit at h
  dsimp only at h
  unfold init_heap_segment at h
  dsimp only at h
  split at h
  · rename_i hc
    split at h
    · simp at h
    · simp only [Prod.mk.injEq] at h
      rw [← h.1]
      rfl
  · split at h
    · simp at h
    · rename_i hz
      exact absurd rfl hz

/-- C10: `min_block` is written only by `myinit`: for every sequence of
alloc/free/realloc operations after a successful `myinit`, `min_block` is
unchanged and still points at the payload of the initial page's first block
(`segBase + 8`). -/
theorem C10_min_block_only_init (fuel : Nat) (st stI stF : AState) (ops : List AllocOp)
    (hinit : myinit st = (stI, true)) (hrun : runOps fuel stI ops = some stF) :
    stF.min_block = stI.min_block ∧ stI.min_block = st.segBase + 8 :=
  ⟨runOps_min_block ops fuel stI stF hrun, myinit_success_min_block st stI hinit⟩

/-- Witness for C10 on a five-operation trace. -/
theorem C10_min_block_only_init_witness :
    (myinit (initialState (1 <<< 20)) = (heap0, true) ∧
      runOps 300 heap0 C10ops = some C10state) ∧
    (C10state.min_block = heap0.min_block ∧
      heap0.min_block = (initialState (1 <<< 20)).segBase + 8) :=
  ⟨⟨rfl, rfl⟩, C10_min_block_only_init 300 (initialState (1 <<< 20)) heap0 C10state C10ops rfl rfl⟩

theorem write32_apply (m : Mem) (a : Int) (v : Nat) (x : Int) :
    write32 m a v x =
      if x = a + 3 then v / 256 ^ 3 % 256
      else if x = a + 2 then v / 256 ^ 2 % 256
      else if x = a + 1 then v / 256 % 256
      else if x = a then v % 256
      else m x := rfl

theorem write64_apply (m : Mem) (a : Int) (v : Int) (x : Int) :
    write64 m a v x =
      if x = a + 7 then (v % (2 ^ 64 : Int)).toNat / 256 ^ 7 % 256
      else if x = a + 6 then (v % (2 ^ 64 : Int)).toNat / 256 ^ 6 % 256
      else if x = a + 5 then (v % (2 ^ 64 : Int)).toNat / 256 ^ 5 % 256
      else if x = a + 4 then (v % (2 ^ 64 : Int)).toNat / 256 ^ 4 % 256
      else if x = a + 3 then (v % (2 ^ 64 : Int)).toNat / 256 ^ 3 % 256
      else if x = a + 2 then (v % (2 ^ 64 : Int)).toNat / 256 ^ 2 % 256
      else if x = a + 1 then (v % (2 ^ 64 : Int)).toNat / 256 % 256
      else if x = a then (v % (2 ^ 64 : Int)).toNat % 256
      else m x := rfl

theorem read8_write32_out (m : Mem) (a : Int) (v : Nat) (x : Int)
    (h : x < a ∨ a + 4 ≤ x) : read8 (write32 m a v) x = read8 m x := by
  unfold read8
  rw [write32_apply]
  split_ifs <;> first | rfl | (exfalso; omega)

theorem read8_write64_out (m : Mem) (a : Int) (v : Int) (x : Int)
    (h : x < a ∨ a + 8 ≤ x) : read8 (write64 m a v) x = read8 m x := by
  unfold read8
  rw [write64_apply]
  split_ifs <;> first | rfl | (exfalso; omega)

theorem read32_write32_out (m : Mem) (b : Int) (v : Nat) (a : Int)
    (h : a + 4 ≤ b ∨ b + 4 ≤ a) : read32 (write32 m b v) a = read32 m a := by
  unfold read32
  rw [read8_write32_out _ _ _ _ (by omega), read8_write32_out _ _ _ _ (by omega),
    read8_write32_out _ _ _ _ (by omega), read8_write32_out _ _ _ _ (by omega)]

theorem read32_write64_out (m : Mem) (b : Int) (v : Int) (a : Int)
    (h : a + 4 ≤ b ∨ b + 8 ≤ a) : read32 (write64 m b v) a = read32 m a := by
  unfold read32
  rw [read8_write64_out _ _ _ _ (by omega), read8_write64_out _ _ _ _ (by omega),
    read8_write64_out _ _ _ _ (by omega), read8_write64_out _ _ _ _ (by omega)]

theorem read64_write32_out (m : Mem) (b : Int) (v : Nat) (a : Int)
    (h : a + 8 ≤ b ∨ b + 4 ≤ a) : read64 (write32 m b v) a = read64 m a := by
  unfold read64
  rw [read8_write32_out _ _ _ _ (by omega), read8_write32_out _ _ _ _ (by omega),
    read8_write32_out _ _ _ _ (by omega), read8_write32_out _ _ _ _ (by omega),
    read8_write32_out _ _ _ _ (by omega), read8_write32_out _ _ _ _ (by omega),
    read8_write32_out _ _ _ _ (by omega), read8_write32_out _ _ _ _ (by omega)]

theorem read64_write64_out (m : Mem) (b : Int) (v : Int) (a : Int)
    (h : a + 8 ≤ b ∨ b + 8 ≤ a) : read64 (write64 m b v) a = read64 m a := by
  unfold read64
  rw [read8_write64_out _ _ _ _ (by omega), read8_write64_out _ _ _ _ (by omega),
    read8_write64_out _ _ _ _ (by omega), read8_write64_out _ _ _ _ (by omega),
    read8_write64_out _ _ _ _ (by omega), read8_write64_out _ _ _ _ (by omega),
    read8_write64_out _ _ _ _ (by omega), read8_write64_out _ _ _ _ (by omega)]

theorem read32_write32_same (m : Mem) (a : Int) (v : Nat) :
    read32 (write32 m a v) a = v % 2 ^ 32 := by
  have b0 : read8 (write32 m a v) a = v % 256 := by
    unfold read8
    rw [write32_apply]
    split_ifs <;> first | omega | (exfalso; omega)
  have b1 : read8 (write32 m a v) (a + 1) = v / 256 % 256 := by
    unfold read8
    rw [write32_apply]
    split_ifs <;> first | omega | (exfalso; omega)
  have b2 : read8 (write32 m a v) (a + 2) = v / 256 ^ 2 % 256 := by
    unfold read8
    rw [write32_apply]
    split_ifs <;> first | omega | (exfalso; omega)
  have b3 : read8 (write32 m a v) (a + 3) = v / 256 ^ 3 % 256 := by
    unfold read8
    rw [write32_apply]
    split_ifs <;> first | omega | (exfalso; omega)
  unfold read32
  rw [b0, b1, b2, b3]
  have e2 : (256 : Nat) ^ 2 = 65536 := by norm_num
  have e3 : (256 : Nat) ^ 3 = 16777216 := by norm_num
  rw [e2, e3]
  omega

set_option maxHeartbeats 1600000 in
theorem read64_write64_same (m : Mem) (a : Int) (v : Int) (h0 : 0 ≤ v)
    (h1 : v < 2 ^ 64) : read64 (write64 m a v) a = v := by
  have hv : v % (2 ^ 64 : Int) = v := Int.emod_eq_of_lt h0 h1
  have b0 : read8 (write64 m a v) a = (v % (2 ^ 64 : Int)).toNat % 256 := by
    unfold read8
    rw [write64_apply]
    split_ifs <;> first | omega | (exfalso; omega)
  have b1 : read8 (write64 m a v) (a + 1) = (v % (2 ^ 64 : Int)).toNat / 256 % 256 := by
    unfold read8
    rw [write64_apply]
    split_ifs <;> first | omega | (exfalso; omega)
  have b2 : read8 (write64 m a v) (a + 2) = (v % (2 ^ 64 : Int)).toNat / 256 ^ 2 % 256 := by
    unfold read8
    rw [write64_apply]
    split_ifs <;> first | omega | (exfalso; omega)
  have b3 : read8 (write64 m a v) (a + 3) = (v % (2 ^ 64 : Int)).toNat / 256 ^ 3 % 256 := by
    unfold read8
    rw [write64_apply]
    split_ifs <;> first | omega | (exfalso; omega)
  have b4 : read8 (write64 m a v) (a + 4) = (v % (2 ^ 64 : Int)).toNat / 256 ^ 4 % 256 := by
    unfold read8
    rw [write64_apply]
    split_ifs <;> first | omega | (exfalso; omega)
  have b5 : read8 (write64 m a v) (a + 5) = (v % (2 ^ 64 : Int)).toNat / 256 ^ 5 % 256 := by
    unfold read8
    rw [write64_apply]
    split_ifs <;> first | omega | (exfalso; omega)
  have b6 : read8 (write64 m a v) (a + 6) = (v % (2 ^ 64 : Int)).toNat / 256 ^ 6 % 256 := by
    unfold read8
    rw [write64_apply]
    split_ifs <;> first | omega | (exfalso; omega)
  have b7 : read8 (write64 m a v) (a + 7) = (v % (2 ^ 64 : Int)).toNat / 256 ^ 7 % 256 := by
    unfold read8
    rw [write64_apply]
    split_ifs <;> first | omega | (exfalso; omega)
  unfold read64
  rw [b0, b1, b2, b3, b4, b5, b6, b7, hv]
  have hn : (v.toNat : Int) = v := Int.toNat_of_nonneg h0
  have hlt : v.toNat < 2 ^ 64 := by omega
  have hsum : (v.toNat % 256 + 256 * (v.toNat / 256 % 256 + 256 * (v.toNat / 256 ^ 2 % 256 +
      256 * (v.toNat / 256 ^ 3 % 256 + 256 * (v.toNat / 256 ^ 4 % 256 +
      256 * (v.toNat / 256 ^ 5 % 256 + 256 * (v.toNat / 256 ^ 6 % 256 +
      256 * (v.toNat / 256 ^ 7 % 256)))))))) = v.toNat := by
    omega
  rw [hsum]
  exact_mod_cast hn

theorem land_lor_flag (x f : Nat) (hf : Nat.land f SIZE_MASK = 0) :
    Nat.land (Nat.lor x f) SIZE_MASK = Nat.land x SIZE_MASK := by
  show (x ||| f) &&& SIZE_MASK = x &&& SIZE_MASK
  apply Nat.eq_of_testBit_eq
  intro i
  have hf2 : f &&& SIZE_MASK = 0 := hf
  have hfi : f.testBit i = true → SIZE_MASK.testBit i = false := by
    have h2 := congrArg (fun t => Nat.testBit t i) hf2
    simpa [Nat.testBit_land] using h2
  rw [Nat.testBit_land, Nat.testBit_lor, Nat.testBit_land]
  cases hx : x.testBit i <;> cases hff : f.testBit i <;> cases hm : SIZE_MASK.testBit i <;>
    simp_all

theorem land_land_mask (x k : Nat) (hk : Nat.land SIZE_MASK k = SIZE_MASK) :
    Nat.land (Nat.land x k) SIZE_MASK = Nat.land x SIZE_MASK := by
  show (x &&& k) &&& SIZE_MASK = x &&& SIZE_MASK
  have hk2 : SIZE_MASK &&& k = SIZE_MASK := hk
  rw [Nat.land_assoc, Nat.land_comm k SIZE_MASK, hk2]

theorem size_mask_land_self (v : Nat) (h4 : v % 4 = 0) (h31 : v < 2 ^ 31) :
    Nat.land v SIZE_MASK = v := by
  show v &&& SIZE_MASK = v
  apply Nat.eq_of_testBit_eq
  intro i
  rw [Nat.testBit_land]
  by_cases h0 : i = 0
  · subst h0
    rw [Nat.testBit_zero]
    have hm2 : v % 2 = 0 := by omega
    simp [hm2]
  by_cases hi1 : i = 1
  · subst hi1
    rw [show (1 : Nat) = Nat.succ 0 from rfl, Nat.testBit_succ, Nat.testBit_zero]
    have hd2 : v / 2 % 2 = 0 := by omega
    simp [hd2]
  by_cases h31i : i < 31
  · have hM : SIZE_MASK.testBit i = true := by
      interval_cases i <;> first | (exact absurd rfl h0) | (exact absurd rfl hi1) | decide
    simp [hM]
  · have hv : v.testBit i = false :=
      Nat.testBit_lt_two_pow
        (lt_of_lt_of_le h31 (Nat.pow_le_pow_right (by omega) (by omega)))
    have hM : SIZE_MASK.testBit i = false :=
      Nat.testBit_lt_two_pow
        (lt_of_lt_of_le (by norm_num [SIZE_MASK] : SIZE_MASK < 2 ^ 31)
          (Nat.pow_le_pow_right (by omega) (by omega)))
    simp [hv, hM]

theorem land_mask_lt (x : Nat) : Nat.land x SIZE_MASK < 2 ^ 31 :=
  lt_of_le_of_lt Nat.and_le_right (by norm_num [SIZE_MASK])

theorem land_mask_mod_four (x : Nat) : Nat.land x SIZE_MASK % 4 = 0 := by
  have h0 : (x &&& SIZE_MASK).testBit 0 = false := by
    rw [Nat.testBit_land]
    have hm : SIZE_MASK.testBit 0 = false := by decide
    simp [hm]
  have h1 : (x &&& SIZE_MASK).testBit 1 = false := by
    rw [Nat.testBit_land]
    have hm : SIZE_MASK.testBit 1 = false := by decide
    simp [hm]
  rw [Nat.testBit_zero] at h0
  rw [show (1 : Nat) = Nat.succ 0 from rfl, Nat.testBit_succ, Nat.testBit_zero] at h1
  simp only [decide_eq_false_iff_not] at h0 h1
  show (x &&& SIZE_MASK) % 4 = 0
  omega

theorem mask_land_prev_free (x : Nat) : Nat.land (Nat.land x SIZE_MASK) PREV_FREE = 0 := by
  show (x &&& SIZE_MASK) &&& PREV_FREE = 0
  rw [Nat.land_assoc]
  rw [show SIZE_MASK &&& PREV_FREE = 0 from by decide]
  show x &&& 0 = 0
  simp

set_option linter.unusedVariables false

theorem coalesce_both_free_ret (st : AState) (ptr : Int) (ps ss ns : Nat) (pb nb : Int)
    (hpf : has_prev_free st.mem ptr = true)
    (hnf : has_next_free st.mem ptr = true)
    (hss : get_size st.mem ptr = ss)
    (hpb : get_prev st.mem ptr = pb)
    (hps : get_size st.mem pb = ps)
    (hnb : nb = ptr + (ss : Int) + 8)
    (hns : get_size st.mem nb = ns)
    (hsum : ps + 8 + ss + 8 + ns < 2 ^ 31)
    (hnb_lt : nb < st.max_block) :
    (coalesce st ptr).2 = pb := by
  unfold coalesce
  dsimp only
  rw [hpf, hnf, hss, hpb, hps]
  rw [if_neg (by simp), if_neg (by simp), if_neg (by simp)]

theorem remove_from_list_max_block (st : AState) (c b : Int) :
    (remove_from_list st c b).max_block = st.max_block := by
  unfold remove_from_list
  dsimp only
  simp [apply_ite AState.max_block]

theorem coalesce_both_free_size (st : AState) (ptr : Int) (ps ss ns : Nat) (pb nb : Int)
    (hpf : has_prev_free st.mem ptr = true)
    (hnf : has_next_free st.mem ptr = true)
    (hss : get_size st.mem ptr = ss)
    (hpb : get_prev st.mem ptr = pb)
    (hps : get_size st.mem pb = ps)
    (hnb : nb = ptr + (ss : Int) + 8)
    (hns : get_size st.mem nb = ns)
    (hsum : ps + 8 + ss + 8 + ns < 2 ^ 31)
    (hnb_lt : nb < st.max_block) :
    get_size (coalesce st ptr).1.mem pb = ps + 8 + ss + 8 + ns := by
  have hpb_le : pb ≤ ptr - 8 := by
    rw [← hpb]
    unfold get_prev hdr_for_payload
    omega
  have hps4 : ps % 4 = 0 := by
    rw [← hps]; unfold get_size; exact land_mask_mod_four _
  have hss4 : ss % 4 = 0 := by
    rw [← hss]; unfold get_size; exact land_mask_mod_four _
  have hns4 : ns % 4 = 0 := by
    rw [← hns]; unfold get_size; exact land_mask_mod_four _
  unfold coalesce
  dsimp only
  rw [hpf, hnf, hss, hpb, hps]
  rw [if_neg (by simp), if_neg (by simp), if_neg (by simp)]
  have hpfh : payload_for_hdr (get_next st.mem ptr) = nb := by
    unfold payload_for_hdr get_next
    rw [hss, hnb]
  rw [hpfh, hns]
  set st2 := (if 16 ≤ ps then
      remove_from_list (if 16 ≤ ns then remove_from_list st nb (cal_bucket ns) else st) pb
        (cal_bucket ps)
    else if 16 ≤ ns then remove_from_list st nb (cal_bucket ns) else st) with hst2
  have hmax2 : st2.max_block = st.max_block := by
    rw [hst2]
    simp only [apply_ite AState.max_block, remove_from_list_max_block, ite_self]
  dsimp only
  simp only [apply_ite AState.max_block]
  simp only [ite_self]
  rw [hmax2]
  rw [if_neg (ne_of_lt hnb_lt), if_pos hnb_lt]
  dsimp only
  have hv0 : Nat.land (get_size st2.mem pb) PREV_FREE = 0 := by
    unfold get_size; exact mask_land_prev_free _
  rw [hv0]
  have hlor : Nat.lor ((ps + 8 + ss + 8 + ns) % 2 ^ 32) 0 =
      (ps + 8 + ss + 8 + ns) % 2 ^ 32 := by
    show _ ||| 0 = _
    simp
  rw [hlor]
  unfold get_next payload_for_hdr
  unfold get_size set_payload_size set_prevpayload_size hdr_for_payload
  generalize Nat.land (read32 (write32 st2.mem (pb - 8) ((ps + 8 + ss + 8 + ns) % 2 ^ 32))
    (nb - 8)) SIZE_MASK = X
  rw [read32_write32_out _ _ _ _ (by omega)]
  rw [read32_write32_same]
  have hmod : (ps + 8 + ss + 8 + ns) % 2 ^ 32 = ps + 8 + ss + 8 + ns :=
    Nat.mod_eq_of_lt (by omega)
  rw [hmod, hmod]
  exact size_mask_land_self _ (by omega) hsum

theorem coalesce_both_free_garbage (st : AState) (ptr : Int) (ps ss ns : Nat) (pb nb : Int)
    (hpf : has_prev_free st.mem ptr = true)
    (hnf : has_next_free st.mem ptr = true)
    (hss : get_size st.mem ptr = ss)
    (hpb : get_prev st.mem ptr = pb)
    (hps : get_size st.mem pb = ps)
    (hnb : nb = ptr + (ss : Int) + 8)
    (hns : get_size st.mem nb = ns)
    (hns16 : ns < 16) (hps16 : ps < 16) :
    (coalesce st ptr).1.buckets = st.buckets := by
  unfold coalesce
  dsimp only
  rw [hpf, hnf, hss, hpb, hps]
  rw [if_neg (by simp), if_neg (by simp), if_neg (by simp)]
  have hpfh : payload_for_hdr (get_next st.mem ptr) = nb := by
    unfold payload_for_hdr get_next
    rw [hss, hnb]
  rw [hpfh, hns]
  set st2 := (if 16 ≤ ps then
      remove_from_list (if 16 ≤ ns then remove_from_list st nb (cal_bucket ns) else st) pb
        (cal_bucket ps)
    else if 16 ≤ ns then remove_from_list st nb (cal_bucket ns) else st) with hst2
  have h2 : st2 = st := by
    rw [hst2, if_neg (by omega), if_neg (by omega)]
  dsimp only
  simp only [apply_ite AState.buckets]
  simp only [ite_self]
  rw [h2]

theorem coalesce_both_free_unlink (st : AState) (ptr : Int) (ps ss ns : Nat) (pb nb : Int)
    (hpf : has_prev_free st.mem ptr = true)
    (hnf : has_next_free st.mem ptr = true)
    (hss : get_size st.mem ptr = ss)
    (hpb : get_prev st.mem ptr = pb)
    (hps : get_size st.mem pb = ps)
    (hnb : nb = ptr + (ss : Int) + 8)
    (hns : get_size st.mem nb = ns)
    (hns16 : 16 ≤ ns) (hps16 : 16 ≤ ps)
    (hn0 : read64 st.mem nb = 0) (hn8 : read64 st.mem (nb + 8) = 0)
    (hp0 : read64 st.mem pb = 0) (hp8 : read64 st.mem (pb + 8) = 0) :
    (coalesce st ptr).1.buckets (cal_bucket ns) = 0 ∧
    (coalesce st ptr).1.buckets (cal_bucket ps) = 0 := by
  unfold coalesce
  dsimp only
  rw [hpf, hnf, hss, hpb, hps]
  rw [if_neg (by simp), if_neg (by simp), if_neg (by simp)]
  have hpfh : payload_for_hdr (get_next st.mem ptr) = nb := by
    unfold payload_for_hdr get_next
    rw [hss, hnb]
  rw [hpfh, hns]
  set st2 := (if 16 ≤ ps then
      remove_from_list (if 16 ≤ ns then remove_from_list st nb (cal_bucket ns) else st) pb
        (cal_bucket ps)
    else if 16 ≤ ns then remove_from_list st nb (cal_bucket ns) else st) with hst2
  have hb2 : ∀ j : Int, st2.buckets j =
      (if j = cal_bucket ps then 0 else if j = cal_bucket ns then 0 else st.buckets j) := by
    intro j
    rw [hst2, if_pos hps16, if_pos hns16]
    unfold remove_from_list get_prev_in_list get_next_in_list
    dsimp only
    simp only [hn0, hn8, hp0, hp8, ne_eq, eq_self_iff_true, not_true, if_false]
  dsimp only
  simp only [apply_ite AState.buckets]
  simp only [ite_self]
  rw [hb2, hb2]
  constructor
  · by_cases h : cal_bucket ns = cal_bucket ps <;> simp [h]
  · simp
theorem coalesce_both_free_eq (st : AState) (ptr : Int) (ps ss ns : Nat) (pb nb : Int)
    (hpf : has_prev_free st.mem ptr = true)
    (hnf : has_next_free st.mem ptr = true)
    (hss : get_size st.mem ptr = ss)
    (hpb : get_prev st.mem ptr = pb)
    (hps : get_size st.mem pb = ps)
    (hnb : nb = ptr + (ss : Int) + 8)
    (hns : get_size st.mem nb = ns)
    (hns16 : 16 ≤ ns) (hps16 : 16 ≤ ps)
    (hn0 : read64 st.mem nb = 0) (hn8 : read64 st.mem (nb + 8) = 0)
    (hp0 : read64 st.mem pb = 0) (hp8 : read64 st.mem (pb + 8) = 0)
    (hsum : ps + 8 + ss + 8 + ns < 2 ^ 31)
    (hnb_lt : nb < st.max_block) :
    coalesce st ptr =
      ({ st with
          mem := write32 (write32 st.mem (pb - 8) (ps + 8 + ss + 8 + ns))
            (nb + (ns : Int) + 4) (ps + 8 + ss + 8 + ns),
          buckets := fun j => if j = cal_bucket ps then 0
            else if j = cal_bucket ns then 0 else st.buckets j }, pb) := by
  have hpb_le : pb ≤ ptr - 8 := by
    rw [← hpb]
    unfold get_prev hdr_for_payload
    omega
  unfold coalesce
  dsimp only
  rw [hpf, hnf, hss, hpb, hps]
  rw [if_neg (by simp), if_neg (by simp), if_neg (by simp)]
  have hpfh : payload_for_hdr (get_next st.mem ptr) = nb := by
    unfold payload_for_hdr get_next
    rw [hss, hnb]
  rw [hpfh, hns]
  set st2 := (if 16 ≤ ps then
      remove_from_list (if 16 ≤ ns then remove_from_list st nb (cal_bucket ns) else st) pb
        (cal_bucket ps)
    else if 16 ≤ ns then remove_from_list st nb (cal_bucket ns) else st) with hst2
  have hst2eq : st2 = { st with buckets := fun j => if j = cal_bucket ps then 0 else if j = cal_bucket ns then 0 else st.buckets j } := by
    rw [hst2, if_pos hps16, if_pos hns16]
    unfold remove_from_list get_prev_in_list get_next_in_list
    dsimp only
    simp only [hn0, hn8, hp0, hp8, ne_eq, eq_self_iff_true, not_true, if_false]
  rw [hst2eq]
  dsimp only
  have hv0 : Nat.land (get_size st.mem pb) PREV_FREE = 0 := by
    unfold get_size; exact mask_land_prev_free _
  rw [hv0]
  have hmod : (ps + 8 + ss + 8 + ns) % 2 ^ 32 = ps + 8 + ss + 8 + ns :=
    Nat.mod_eq_of_lt (by omega)
  have hlz : Nat.lor ((ps + 8 + ss + 8 + ns) % 2 ^ 32) 0 = (ps + 8 + ss + 8 + ns) % 2 ^ 32 := by
    show _ ||| 0 = _
    simp
  rw [hlz, hmod]
  have hgn : get_next (write32 st.mem (pb - 8) (ps + 8 + ss + 8 + ns)) nb =
      nb + (ns : Int) := by
    unfold get_next get_size hdr_for_payload
    rw [read32_write32_out _ _ _ _ (by omega)]
    unfold get_size hdr_for_payload at hns
    rw [hns]
  unfold set_payload_size hdr_for_payload
  rw [hgn]
  simp only [apply_ite AState.max_block]
  simp only [ite_self]
  rw [if_neg (ne_of_lt hnb_lt), if_pos hnb_lt]
  unfold set_prevpayload_size payload_for_hdr hdr_for_payload
  have haddr : nb + (ns : Int) + 8 - 8 + 4 = nb + (ns : Int) + 4 := by ring
  rw [haddr]
theorem myfree_both_free (st : AState) (ptr : Int) (ps ss ns : Nat) (pb nb : Int) (fuel : Nat)
    (hpf : has_prev_free st.mem ptr = true)
    (hnf : has_next_free st.mem ptr = true)
    (hss : get_size st.mem ptr = ss)
    (hpb : get_prev st.mem ptr = pb)
    (hps : get_size st.mem pb = ps)
    (hnb : nb = ptr + (ss : Int) + 8)
    (hns : get_size st.mem nb = ns)
    (hns16 : 16 ≤ ns) (hps16 : 16 ≤ ps)
    (hn0 : read64 st.mem nb = 0) (hn8 : read64 st.mem (nb + 8) = 0)
    (hp0 : read64 st.mem pb = 0) (hp8 : read64 st.mem (pb + 8) = 0)
    (hsum : ps + 8 + ss + 8 + ns < 2 ^ 31)
    (hnb_lt : nb < st.max_block)
    (hptr : ptr ≠ 0)
    (hmin : pb ≠ st.min_block)
    (hbt : st.buckets (cal_bucket (ps + 8 + ss + 8 + ns)) = 0) :
    ∃ stf, myfree fuel st ptr = some stf ∧
      stf.buckets (cal_bucket (ps + 8 + ss + 8 + ns)) = pb ∧
      get_size stf.mem pb = ps + 8 + ss + 8 + ns ∧
      Nat.testBit (get_payloadsz stf.mem pb) 31 = true := by
  have hpb_le : pb ≤ ptr - 8 := by
    rw [← hpb]
    unfold get_prev hdr_for_payload
    omega
  have hco := coalesce_both_free_eq st ptr ps ss ns pb nb hpf hnf hss hpb hps hnb hns
    hns16 hps16 hn0 hn8 hp0 hp8 hsum hnb_lt
  set S := ps + 8 + ss + 8 + ns with hS
  have hps4 : ps % 4 = 0 := by
    rw [← hps]; unfold get_size; exact land_mask_mod_four _
  have hss4 : ss % 4 = 0 := by
    rw [← hss]; unfold get_size; exact land_mask_mod_four _
  have hns4 : ns % 4 = 0 := by
    rw [← hns]; unfold get_size; exact land_mask_mod_four _
  have hS4 : S % 4 = 0 := by omega
  have hS31 : S < 2 ^ 31 := hsum
  set M1 := write32 (write32 st.mem (pb - 8) S) (nb + (ns : Int) + 4) S with hM1
  set B1 := (fun j => if j = cal_bucket ps then (0 : Int)
    else if j = cal_bucket ns then 0 else st.buckets j) with hB1
  have hplt : pb < st.max_block := by omega
  have hngt : ¬(pb > st.max_block) := by omega
  have hrdM1 : read32 M1 (pb - 8) = S := by
    rw [hM1]
    rw [read32_write32_out _ _ _ _ (by omega)]
    rw [read32_write32_same]
    exact Nat.mod_eq_of_lt (by omega)
  have hgsM1 : get_size M1 pb = S := by
    unfold get_size hdr_for_payload
    rw [hrdM1]
    exact size_mask_land_self S hS4 hS31
  have hgnM1 : get_next M1 pb = pb + (S : Int) := by
    unfold get_next
    rw [hgsM1]
  set m2 := write32 M1 (pb + (S : Int))
    (Nat.lor (read32 M1 (pb + (S : Int))) PREV_FREE) with hm2
  have hps2 : get_prev_size m2 pb = Nat.land (read32 st.mem (pb - 4)) SIZE_MASK := by
    unfold get_prev_size hdr_for_payload
    rw [hm2, hM1]
    rw [read32_write32_out _ _ _ _ (by omega)]
    rw [read32_write32_out _ _ _ _ (by omega)]
    rw [read32_write32_out _ _ _ _ (by omega)]
    congr 2
    omega
  set psz2 := Nat.land (read32 st.mem (pb - 4)) SIZE_MASK with hpsz2
  have hgp2 : get_prev m2 pb = pb - 8 - (psz2 : Int) := by
    unfold get_prev hdr_for_payload
    rw [hps2]
  set m3 := write32 m2 (pb - 8 - (psz2 : Int) - 8)
    (Nat.lor (read32 m2 (pb - 8 - (psz2 : Int) - 8)) NEXT_FREE) with hm3
  have hr3 : read32 m3 (pb - 8) = S := by
    rw [hm3, hm2, hM1]
    rw [read32_write32_out _ _ _ _ (by omega)]
    rw [read32_write32_out _ _ _ _ (by omega)]
    rw [read32_write32_out _ _ _ _ (by omega)]
    rw [read32_write32_same]
    exact Nat.mod_eq_of_lt (by omega)
  set m5 := write32 m3 (pb - 8) (Nat.lor S FREE_MASK) with hm5
  have hlt32 : Nat.lor S FREE_MASK < 2 ^ 32 := by
    show S ||| FREE_MASK < 2 ^ 32
    exact Nat.or_lt_two_pow (by omega) (by norm_num [FREE_MASK])
  have hr5 : read32 m5 (pb - 8) = Nat.lor S FREE_MASK := by
    rw [hm5, read32_write32_same]
    exact Nat.mod_eq_of_lt hlt32
  have hfree_mask : Nat.land FREE_MASK SIZE_MASK = 0 := by decide
  have hgs5 : get_size m5 pb = S := by
    unfold get_size hdr_for_payload
    rw [hr5]
    rw [land_lor_flag _ _ hfree_mask]
    exact size_mask_land_self S hS4 hS31
  have hB1S : B1 (cal_bucket S) = 0 := by
    rw [hB1]
    dsimp only
    split_ifs with h1 h2
    · rfl
    · rfl
    · exact hbt
  set mf := write64 (write64 m5 (pb + 8) 0) pb 0 with hmf
  set bf := (fun i => if i = cal_bucket S then pb else B1 i) with hbf
  refine ⟨{ st with mem := mf, buckets := bf }, ?_, ?_, ?_, ?_⟩
  · unfold myfree
    rw [if_neg hptr, hco]
    dsimp only
    simp only [if_pos hplt]
    simp only [if_pos hmin]
    simp only [if_neg hngt]
    unfold set_prevfree
    rw [hgnM1]
    rw [← hm2]
    unfold set_nextfree
    rw [hgp2]
    unfold hdr_for_payload
    rw [← hm3]
    unfold set_free set_payload_size get_payloadsz hdr_for_payload
    rw [hr3]
    rw [← hm5]
    unfold myfree_insert
    dsimp only
    rw [hgs5]
    rw [hB1S]
    rw [if_pos rfl]
    rw [if_neg (by simp)]
    unfold set_prev_in_list set_next_in_list
    rfl
  · dsimp only
    rw [hbf]
    dsimp only
    rw [if_pos rfl]
  · unfold get_size hdr_for_payload
    dsimp only
    rw [hmf]
    rw [read32_write64_out _ _ _ _ (by omega)]
    rw [read32_write64_out _ _ _ _ (by omega)]
    rw [hr5]
    rw [land_lor_flag _ _ hfree_mask]
    exact size_mask_land_self S hS4 hS31
  · unfold get_payloadsz hdr_for_payload
    dsimp only
    rw [hmf]
    rw [read32_write64_out _ _ _ _ (by omega)]
    rw [read32_write64_out _ _ _ _ (by omega)]
    rw [hr5]
    have h : Nat.lor S FREE_MASK = S ||| 2147483648 := rfl
    rw [h, Nat.testBit_lor]
    have h2 : Nat.testBit 2147483648 31 = true := by decide
    rw [h2, Bool.or_true]
/-- C6: when the freed block has both `PREV_FREE` and `NEXT_FREE` set,
`coalesce` returns the previous block, the merged size is
`prev + 8 + self + 8 + next`, each neighbour is unlinked from its bucket
exactly when its size is ≥ 16 (garbage neighbours leave the buckets
untouched), and `myfree` then re-inserts the merged block into its bucket
with the `FREE` bit set. -/
theorem C6_coalesce_both_free (st : AState) (ptr : Int) (ps ss ns : Nat) (pb nb : Int)
    (hpf : has_prev_free st.mem ptr = true)
    (hnf : has_next_free st.mem ptr = true)
    (hss : get_size st.mem ptr = ss)
    (hpb : get_prev st.mem ptr = pb)
    (hps : get_size st.mem pb = ps)
    (hnb : nb = ptr + (ss : Int) + 8)
    (hns : get_size st.mem nb = ns)
    (hsum : ps + 8 + ss + 8 + ns < 2 ^ 31)
    (hnb_lt : nb < st.max_block) :
    (coalesce st ptr).2 = pb ∧
    get_size (coalesce st ptr).1.mem pb = ps + 8 + ss + 8 + ns ∧
    (ns < 16 → ps < 16 → (coalesce st ptr).1.buckets = st.buckets) ∧
    (16 ≤ ns → 16 ≤ ps → read64 st.mem nb = 0 → read64 st.mem (nb + 8) = 0 →
      read64 st.mem pb = 0 → read64 st.mem (pb + 8) = 0 →
      (coalesce st ptr).1.buckets (cal_bucket ns) = 0 ∧
      (coalesce st ptr).1.buckets (cal_bucket ps) = 0) ∧
    (∀ fuel : Nat, 16 ≤ ns → 16 ≤ ps → read64 st.mem nb = 0 → read64 st.mem (nb + 8) = 0 →
      read64 st.mem pb = 0 → read64 st.mem (pb + 8) = 0 →
      ptr ≠ 0 → pb ≠ st.min_block → st.buckets (cal_bucket (ps + 8 + ss + 8 + ns)) = 0 →
      ∃ stf, myfree fuel st ptr = some stf ∧
        stf.buckets (cal_bucket (ps + 8 + ss + 8 + ns)) = pb ∧
        get_size stf.mem pb = ps + 8 + ss + 8 + ns ∧
        Nat.testBit (get_payloadsz stf.mem pb) 31 = true) := by
  refine ⟨coalesce_both_free_ret st ptr ps ss ns pb nb hpf hnf hss hpb hps hnb hns hsum hnb_lt,
    coalesce_both_free_size st ptr ps ss ns pb nb hpf hnf hss hpb hps hnb hns hsum hnb_lt,
    fun h1 h2 => coalesce_both_free_garbage st ptr ps ss ns pb nb hpf hnf hss hpb hps hnb hns h1 h2,
    fun h1 h2 h3 h4 h5 h6 => coalesce_both_free_unlink st ptr ps ss ns pb nb hpf hnf hss hpb hps hnb hns
      h1 h2 h3 h4 h5 h6,
    fun fuel h1 h2 h3 h4 h5 h6 h7 h8 h9 => myfree_both_free st ptr ps ss ns pb nb fuel
      hpf hnf hss hpb hps hnb hns h1 h2 h3 h4 h5 h6 hsum hnb_lt h7 h8 h9⟩

/-- Concrete instantiation of the C6 theorem: in `C6wit` the block at 1056
(16 bytes) has free neighbours at 1032 (16 bytes) and 1080 (32 bytes). -/
theorem C6_coalesce_both_free_witness :
    has_prev_free C6wit.mem 1056 = true ∧ has_next_free C6wit.mem 1056 = true ∧
    (coalesce C6wit 1056).2 = 1032 ∧
    get_size (coalesce C6wit 1056).1.mem 1032 = 16 + 8 + 16 + 8 + 32 ∧
    ((coalesce C6wit 1056).1.buckets (cal_bucket 32) = 0 ∧
     (coalesce C6wit 1056).1.buckets (cal_bucket 16) = 0) ∧
    (∃ stf, myfree 100 C6wit 1056 = some stf ∧
      stf.buckets (cal_bucket (16 + 8 + 16 + 8 + 32)) = 1032 ∧
      get_size stf.mem 1032 = 16 + 8 + 16 + 8 + 32 ∧
      Nat.testBit (get_payloadsz stf.mem 1032) 31 = true) := by
  have h := C6_coalesce_both_free C6wit 1056 16 16 32 1032 1080 (by decide) (by decide)
    (by decide) (by decide) (by decide) (by decide) (by decide) (by decide) (by decide)
  exact ⟨by decide, by decide, h.1, h.2.1,
    h.2.2.2.1 (by decide) (by decide) (by decide) (by decide) (by decide) (by decide),
    h.2.2.2.2 100 (by decide) (by decide) (by decide) (by decide) (by decide) (by decide)
      (by decide) (by decide) (by decide)⟩
theorem land_prev_land_mask (x : Nat) :
    Nat.land (Nat.land x PREV_FREE) SIZE_MASK = 0 := by
  have h : Nat.land x PREV_FREE = x % 2 := Nat.and_one_is_mod x
  rw [h]
  rcases Nat.mod_two_eq_zero_or_one x with h2 | h2 <;> rw [h2] <;> decide

theorem land_prev_combo (v raw : Nat) (h4 : v % 4 = 0) :
    Nat.land (Nat.lor (Nat.lor (Nat.lor v NEXT_FREE) (Nat.land raw PREV_FREE)) NEXT_FREE)
      PREV_FREE = Nat.land raw PREV_FREE := by
  apply Nat.eq_of_testBit_eq
  intro i
  show Nat.testBit (((v ||| NEXT_FREE ||| (raw &&& PREV_FREE)) ||| NEXT_FREE) &&& PREV_FREE) i
    = Nat.testBit (raw &&& PREV_FREE) i
  rw [Nat.testBit_and, Nat.testBit_lor, Nat.testBit_lor, Nat.testBit_lor, Nat.testBit_and]
  by_cases hi : i = 0
  · subst hi
    have hv : v.testBit 0 = false := by
      rw [Nat.testBit_zero]
      simp
      omega
    have hn : Nat.testBit NEXT_FREE 0 = false := by decide
    rw [hv, hn]
    simp
  · have h1 : Nat.testBit PREV_FREE i = false := by
      rcases Nat.exists_eq_succ_of_ne_zero hi with ⟨j, rfl⟩
      show Nat.testBit 1 (j + 1) = false
      rw [Nat.testBit_succ]
      simp
    rw [h1]
    simp
theorem land_next_of_mod4 (w : Nat) (h : w % 4 = 0) : Nat.land w NEXT_FREE = 0 := by
  apply Nat.eq_of_testBit_eq
  intro i
  show Nat.testBit (w &&& 2) i = Nat.testBit 0 i
  rw [Nat.testBit_and]
  simp only [Nat.zero_testBit]
  match i with
  | 0 =>
    have h2 : Nat.testBit 2 0 = false := by decide
    rw [h2, Bool.and_false]
  | 1 =>
    have hw : w.testBit 1 = false := by
      rw [Nat.testBit_succ, Nat.testBit_zero]
      simp
      omega
    rw [hw, Bool.false_and]
  | (j + 2) =>
    have h2 : Nat.testBit 2 (j + 2) = false :=
      Nat.testBit_lt_two_pow (by
        have : (4 : Nat) ≤ 2 ^ (j + 2) := by
          calc (4 : Nat) = 2 ^ 2 := by norm_num
          _ ≤ 2 ^ (j + 2) := Nat.pow_le_pow_right (by norm_num) (by omega)
        omega)
    rw [h2, Bool.and_false]

theorem land_prev_of_mod4 (w : Nat) (h : w % 4 = 0) : Nat.land w PREV_FREE = 0 := by
  show w &&& 1 = 0
  rw [Nat.and_one_is_mod]
  omega
theorem myfree_fresh_block (st : AState) (r : Int) (w q : Nat) (fuel : Nat)
    (hr0 : r ≠ 0)
    (hhdr : read32 st.mem (r - 8) = w)
    (hw4 : w % 4 = 0) (hw31 : w < 2 ^ 31) (hw16 : 16 ≤ w)
    (hq : Nat.land (read32 st.mem (r - 4)) SIZE_MASK = q)
    (hrmax : r < st.max_block) (hrmin : r ≠ st.min_block)
    (hbk : st.buckets (cal_bucket w) = 0) :
    myfree fuel st r = some (AState.mk
      (write64 (write64 (write32 (write32 (write32 st.mem (r + (w : Int))
          (Nat.lor (read32 st.mem (r + (w : Int))) PREV_FREE))
        (r - 8 - (q : Int) - 8)
          (Nat.lor (read32 (write32 st.mem (r + (w : Int))
            (Nat.lor (read32 st.mem (r + (w : Int))) PREV_FREE)) (r - 8 - (q : Int) - 8))
            NEXT_FREE))
        (r - 8) (Nat.lor w FREE_MASK)) (r + 8) 0) r 0)
      (fun i => if i = cal_bucket w then r else st.buckets i)
      st.max_block st.min_block st.segBase st.segEnd st.segLimit) := by
  have hgs : get_size st.mem r = w := by
    unfold get_size hdr_for_payload
    rw [hhdr]
    exact size_mask_land_self w hw4 hw31
  have hpf : has_prev_free st.mem r = false := by
    unfold has_prev_free get_payloadsz hdr_for_payload
    rw [hhdr]
    simp [land_prev_of_mod4 w hw4]
  have hnf : has_next_free st.mem r = false := by
    unfold has_next_free get_payloadsz hdr_for_payload
    rw [hhdr]
    simp [land_next_of_mod4 w hw4]
  have hco : coalesce st r = (st, r) := by
    unfold coalesce
    dsimp only
    rw [hpf, hnf]
    rw [if_pos (by simp)]
  unfold myfree
  rw [if_neg hr0, hco]
  dsimp only
  simp only [if_pos hrmax]
  simp only [if_pos hrmin]
  simp only [if_neg (show ¬(r > st.max_block) by omega)]
  unfold set_prevfree
  have hgn : get_next st.mem r = r + (w : Int) := by
    unfold get_next
    rw [hgs]
  rw [hgn]
  set m6 := write32 st.mem (r + (w : Int))
    (Nat.lor (read32 st.mem (r + (w : Int))) PREV_FREE) with hm6
  unfold set_nextfree
  have hgp : get_prev m6 r = r - 8 - (q : Int) := by
    unfold get_prev get_prev_size hdr_for_payload
    rw [hm6]
    rw [read32_write32_out _ _ _ _ (by omega)]
    have h4 : r - 8 + 4 = r - 4 := by ring
    rw [h4, hq]
  rw [hgp]
  unfold hdr_for_payload
  set m7 := write32 m6 (r - 8 - (q : Int) - 8)
    (Nat.lor (read32 m6 (r - 8 - (q : Int) - 8)) NEXT_FREE) with hm7
  unfold set_free set_payload_size get_payloadsz hdr_for_payload
  have hr7 : read32 m7 (r - 8) = w := by
    rw [hm7, hm6]
    rw [read32_write32_out _ _ _ _ (by omega)]
    rw [read32_write32_out _ _ _ _ (by omega)]
    exact hhdr
  rw [hr7]
  set m8 := write32 m7 (r - 8) (Nat.lor w FREE_MASK) with hm8
  unfold myfree_insert
  dsimp only
  have hlt32 : Nat.lor w FREE_MASK < 2 ^ 32 := by
    show w ||| FREE_MASK < 2 ^ 32
    exact Nat.or_lt_two_pow (by omega) (by norm_num [FREE_MASK])
  have hgs8 : get_size m8 r = w := by
    unfold get_size hdr_for_payload
    rw [hm8, read32_write32_same]
    rw [Nat.mod_eq_of_lt hlt32]
    rw [land_lor_flag _ _ (by decide)]
    exact size_mask_land_self w hw4 hw31
  rw [hgs8]
  rw [hbk]
  rw [if_pos rfl]
  rw [if_neg (by simp)]
  unfold set_prev_in_list set_next_in_list
  rfl
theorem testBit_one_lor_next (x : Nat) :
    Nat.testBit (Nat.lor x NEXT_FREE) 1 = true := by
  have h : Nat.lor x NEXT_FREE = x ||| 2 := rfl
  rw [h, Nat.testBit_lor]
  have h2 : Nat.testBit 2 1 = true := by decide
  rw [h2, Bool.or_true]

theorem testBit_31_lor_free (x : Nat) :
    Nat.testBit (Nat.lor x FREE_MASK) 31 = true := by
  have h : Nat.lor x FREE_MASK = x ||| 2147483648 := rfl
  rw [h, Nat.testBit_lor]
  have h2 : Nat.testBit 2147483648 31 = true := by decide
  rw [h2, Bool.or_true]

/-- C5: in-place grow path of `myrealloc`.  When the rounded request `req`
exceeds the current size, the forward neighbour is free and can absorb the
growth leaving at least 16 bytes, `myrealloc` unlinks the neighbour, rewrites
the old block's header to size `req` (preserving `PREV_FREE`, setting
`NEXT_FREE`), lays out a free remainder of size `current + neighbour - req`
at `p + req + 8` with `prev_payload_size = req`, frees it into its bucket,
and returns the original pointer. -/
theorem C5_realloc_inplace_grow (st : AState) (p nb : Int) (oldsz ns req n : Nat)
    (fuel : Nat)
    (hru : roundup (n % 2 ^ 32) ALIGNMENT % 2 ^ 32 = req)
    (hry : 16 ≤ req) (hreq8 : req % 8 = 0)
    (hold : get_size st.mem p = oldsz) (hold8 : oldsz % 8 = 0)
    (hgrow : oldsz < req)
    (hnf : has_next_free st.mem p = true)
    (hplt : p < st.max_block)
    (hnb : nb = p + (oldsz : Int) + 8)
    (hns : get_size st.mem nb = ns)
    (hfit : req + 16 ≤ oldsz + ns)
    (hb31 : oldsz + ns < 2 ^ 31)
    (hnb0 : read64 st.mem nb = 0) (hnb8 : read64 st.mem (nb + 8) = 0)
    (hnoc : has_next_free st.mem nb = false)
    (hr0 : p + (req : Int) + 8 ≠ 0)
    (hremlt : p + (req : Int) + 8 < st.max_block)
    (hminr : p + (req : Int) + 8 ≠ st.min_block)
    (hrb : st.buckets (cal_bucket (oldsz + ns - req)) = 0) :
    ∃ stf, myrealloc fuel st p n = some (stf, p) ∧
      get_size stf.mem p = req ∧
      Nat.land (get_payloadsz stf.mem p) PREV_FREE
        = Nat.land (get_payloadsz st.mem p) PREV_FREE ∧
      Nat.testBit (get_payloadsz stf.mem p) 1 = true ∧
      get_size stf.mem (p + (req : Int) + 8) = oldsz + ns - req ∧
      get_prev_size stf.mem (p + (req : Int) + 8) = req ∧
      Nat.testBit (get_payloadsz stf.mem (p + (req : Int) + 8)) 31 = true ∧
      stf.buckets (cal_bucket (oldsz + ns - req)) = p + (req : Int) + 8 ∧
      (cal_bucket ns ≠ cal_bucket (oldsz + ns - req) →
        stf.buckets (cal_bucket ns) = 0) := by
  have hns4 : ns % 4 = 0 := by
    rw [← hns]; unfold get_size; exact land_mask_mod_four _
  have hreq_ge : oldsz + 8 ≤ req := by omega
  have hreq31 : req < 2 ^ 31 := by omega
  set w := oldsz + ns - req with hwdef
  have hw4 : w % 4 = 0 := by omega
  have hw31 : w < 2 ^ 31 := by omega
  have hw16 : 16 ≤ w := by omega
  unfold myrealloc
  dsimp only
  rw [hold, hru]
  rw [if_neg (show ¬(req = oldsz) by omega)]
  simp only [if_neg (show ¬(req < 16) by omega)]
  rw [if_pos (show oldsz < req ∧ has_next_free st.mem p = true ∧ p < st.max_block
    from ⟨hgrow, hnf, hplt⟩)]
  have hnbd : payload_for_hdr (get_next st.mem p) = nb := by
    unfold payload_for_hdr get_next
    rw [hold, hnb]
  rw [hnbd, hns]
  have hwval : ((ns + oldsz) % 2 ^ 32 + (2 ^ 32 - req)) % 2 ^ 32 = w := by omega
  rw [hwval]
  rw [if_pos (show toInt32 w ≥ 16 by
    unfold toInt32
    rw [if_pos (by omega)]
    omega)]
  have hrm : remove_from_list st nb (cal_bucket ns)
      = { st with buckets := fun i => if i = cal_bucket ns then 0 else st.buckets i } := by
    unfold remove_from_list get_prev_in_list get_next_in_list
    dsimp only
    simp only [hnb0, hnb8, ne_eq, eq_self_iff_true, not_true, if_false]
  rw [hrm]
  dsimp only
  have hrem : payload_for_hdr (p + (req : Int)) = p + (req : Int) + 8 := rfl
  rw [hrem]
  unfold set_payload_size set_prevpayload_size hdr_for_payload
  have ha1 : p + (req : Int) + 8 - 8 = p + (req : Int) := by ring
  rw [ha1]
  set mem1 := write32 st.mem (p + (req : Int)) w with hm1
  have ha2 : p + (req : Int) + 4 = p + (req : Int) + 4 := rfl
  set mem2 := write32 mem1 (p + (req : Int) + 4) req with hm2
  have hA : read32 mem2 (p + (req : Int)) = w := by
    rw [hm2, hm1]
    rw [read32_write32_out _ _ _ _ (by omega)]
    rw [read32_write32_same]
    exact Nat.mod_eq_of_lt (by omega)
  rw [hA]
  have hB : get_payloadsz mem2 nb = get_payloadsz st.mem nb := by
    unfold get_payloadsz hdr_for_payload
    rw [hm2, hm1, hnb]
    rw [read32_write32_out _ _ _ _ (by omega)]
    rw [read32_write32_out _ _ _ _ (by omega)]
  rw [hB]
  have hnoc' : Nat.land (get_payloadsz st.mem nb) NEXT_FREE = 0 := by
    unfold has_next_free at hnoc
    simpa using hnoc
  rw [hnoc']
  have hlor0 : Nat.lor w 0 = w := by
    show w ||| 0 = w
    simp
  rw [hlor0]
  set mem3 := write32 mem2 (p + (req : Int)) w with hm3
  have hC : get_payloadsz mem3 p = get_payloadsz st.mem p := by
    unfold get_payloadsz hdr_for_payload
    rw [hm3, hm2, hm1]
    rw [read32_write32_out _ _ _ _ (by omega)]
    rw [read32_write32_out _ _ _ _ (by omega)]
    rw [read32_write32_out _ _ _ _ (by omega)]
  rw [hC]
  set raw := get_payloadsz st.mem p with hraw
  set mem4 := write32 mem3 (p - 8)
    (Nat.lor (Nat.lor req NEXT_FREE) (Nat.land raw PREV_FREE)) with hm4
  rw [if_pos hremlt]
  have hcombo_lt : Nat.lor (Nat.lor req NEXT_FREE) (Nat.land raw PREV_FREE) < 2 ^ 32 := by
    show (req ||| NEXT_FREE) ||| (raw &&& PREV_FREE) < 2 ^ 32
    apply Nat.or_lt_two_pow
    · apply Nat.or_lt_two_pow
      · omega
      · norm_num [NEXT_FREE]
    · have h1 : raw &&& PREV_FREE ≤ PREV_FREE := Nat.and_le_right
      have h2 : PREV_FREE < 2 ^ 32 := by norm_num [PREV_FREE]
      omega
  have hgs4 : get_size mem4 (p + (req : Int) + 8) = w := by
    unfold get_size hdr_for_payload
    rw [ha1, hm4, hm3]
    rw [read32_write32_out _ _ _ _ (by omega)]
    rw [read32_write32_same]
    rw [Nat.mod_eq_of_lt (by omega)]
    exact size_mask_land_self w hw4 hw31
  have hgn4 : get_next mem4 (p + (req : Int) + 8) = p + (req : Int) + 8 + (w : Int) := by
    unfold get_next
    rw [hgs4]
  rw [hgn4, hgs4]
  have hrem2 : payload_for_hdr (p + (req : Int) + 8 + (w : Int))
      = p + (req : Int) + 8 + (w : Int) + 8 := rfl
  rw [hrem2]
  have ha3 : p + (req : Int) + 8 + (w : Int) + 8 - 8 + 4 = p + (req : Int) + 12 + (w : Int) := by
    ring
  rw [ha3]
  set mem5 := write32 mem4 (p + (req : Int) + 12 + (w : Int)) w with hm5
  rw [if_neg (show ¬(p + (req : Int) + 8 > st.max_block) by omega)]
  have hhdr5 : read32 mem5 (p + (req : Int) + 8 - 8) = w := by
    rw [ha1, hm5, hm4, hm3]
    rw [read32_write32_out _ _ _ _ (by omega)]
    rw [read32_write32_out _ _ _ _ (by omega)]
    rw [read32_write32_same]
    exact Nat.mod_eq_of_lt (by omega)
  have hq5 : Nat.land (read32 mem5 (p + (req : Int) + 8 - 4)) SIZE_MASK = req := by
    have ha4 : p + (req : Int) + 8 - 4 = p + (req : Int) + 4 := by ring
    rw [ha4, hm5, hm4, hm3, hm2]
    rw [read32_write32_out _ _ _ _ (by omega)]
    rw [read32_write32_out _ _ _ _ (by omega)]
    rw [read32_write32_out _ _ _ _ (by omega)]
    rw [read32_write32_same]
    rw [Nat.mod_eq_of_lt (by omega)]
    exact size_mask_land_self req (by omega) hreq31
  have hbk5 : (if cal_bucket w = cal_bucket ns then (0 : Int)
      else st.buckets (cal_bucket w)) = 0 := by
    split_ifs with h
    · rfl
    · exact hrb
  set B2 := (fun i => if i = cal_bucket ns then (0 : Int) else st.buckets i) with hB2
  set st5 := { st with mem := mem5, buckets := B2 } with hst5
  have hfin := myfree_fresh_block st5 (p + (req : Int) + 8) w req fuel hr0 hhdr5 hw4 hw31
    hw16 hq5 hremlt hminr hbk5
  rw [hfin]
  dsimp only
  have ha5 : p + (req : Int) + 8 - 8 - (req : Int) - 8 = p - 8 := by ring
  rw [ha5, ha1]
  set m6 := write32 mem5 (p + (req : Int) + 8 + (w : Int))
    (Nat.lor (read32 mem5 (p + (req : Int) + 8 + (w : Int))) PREV_FREE) with hm6
  set m7 := write32 m6 (p - 8) (Nat.lor (read32 m6 (p - 8)) NEXT_FREE) with hm7
  set m8 := write32 m7 (p + (req : Int)) (Nat.lor w FREE_MASK) with hm8
  have hr6 : read32 m6 (p - 8) = Nat.lor (Nat.lor req NEXT_FREE) (Nat.land raw PREV_FREE) := by
    rw [hm6, hm5, hm4]
    rw [read32_write32_out _ _ _ _ (by omega)]
    rw [read32_write32_out _ _ _ _ (by omega)]
    rw [read32_write32_same]
    exact Nat.mod_eq_of_lt hcombo_lt
  have hx_lt : Nat.lor (Nat.lor (Nat.lor req NEXT_FREE) (Nat.land raw PREV_FREE))
      NEXT_FREE < 2 ^ 32 := by
    show ((req ||| NEXT_FREE) ||| (raw &&& PREV_FREE)) ||| NEXT_FREE < 2 ^ 32
    exact Nat.or_lt_two_pow hcombo_lt (by norm_num [NEXT_FREE])
  have hrdp : read32 (write64 (write64 m8 (p + (req : Int) + 8 + 8) 0)
      (p + (req : Int) + 8) 0) (p - 8)
      = Nat.lor (Nat.lor (Nat.lor req NEXT_FREE) (Nat.land raw PREV_FREE)) NEXT_FREE := by
    rw [read32_write64_out _ _ _ _ (by omega)]
    rw [read32_write64_out _ _ _ _ (by omega)]
    rw [hm8]
    rw [read32_write32_out _ _ _ _ (by omega)]
    rw [hm7, hr6]
    rw [read32_write32_same]
    exact Nat.mod_eq_of_lt hx_lt
  have hwf_lt : Nat.lor w FREE_MASK < 2 ^ 32 := by
    show w ||| FREE_MASK < 2 ^ 32
    exact Nat.or_lt_two_pow (by omega) (by norm_num [FREE_MASK])
  have hrdr : read32 (write64 (write64 m8 (p + (req : Int) + 8 + 8) 0)
      (p + (req : Int) + 8) 0) (p + (req : Int)) = Nat.lor w FREE_MASK := by
    rw [read32_write64_out _ _ _ _ (by omega)]
    rw [read32_write64_out _ _ _ _ (by omega)]
    rw [hm8]
    rw [read32_write32_same]
    exact Nat.mod_eq_of_lt hwf_lt
  have hnext_mask : Nat.land NEXT_FREE SIZE_MASK = 0 := by decide
  refine ⟨_, rfl, ?_, ?_, ?_, ?_, ?_, ?_, ?_, ?_⟩
  · unfold get_size hdr_for_payload
    dsimp only
    rw [hrdp]
    rw [land_lor_flag _ _ hnext_mask]
    rw [land_lor_flag _ _ (land_prev_land_mask raw)]
    rw [land_lor_flag _ _ hnext_mask]
    exact size_mask_land_self req (by omega) hreq31
  · unfold get_payloadsz hdr_for_payload
    dsimp only
    rw [hrdp]
    exact land_prev_combo req raw (by omega)
  · unfold get_payloadsz hdr_for_payload
    dsimp only
    rw [hrdp]
    exact testBit_one_lor_next _
  · unfold get_size hdr_for_payload
    dsimp only
    rw [ha1, hrdr]
    rw [land_lor_flag _ _ (by decide)]
    exact size_mask_land_self w hw4 hw31
  · unfold get_prev_size hdr_for_payload
    dsimp only
    have ha6 : p + (req : Int) + 8 - 8 + 4 = p + (req : Int) + 4 := by ring
    rw [ha6]
    rw [read32_write64_out _ _ _ _ (by omega)]
    rw [read32_write64_out _ _ _ _ (by omega)]
    rw [hm8]
    rw [read32_write32_out _ _ _ _ (by omega)]
    rw [hm7]
    rw [read32_write32_out _ _ _ _ (by omega)]
    rw [hm6]
    rw [read32_write32_out _ _ _ _ (by omega)]
    rw [hm5]
    rw [read32_write32_out _ _ _ _ (by omega)]
    rw [hm4]
    rw [read32_write32_out _ _ _ _ (by omega)]
    rw [hm3]
    rw [read32_write32_out _ _ _ _ (by omega)]
    rw [hm2]
    rw [read32_write32_same]
    rw [Nat.mod_eq_of_lt (by omega)]
    exact size_mask_land_self req (by omega) hreq31
  · unfold get_payloadsz hdr_for_payload
    dsimp only
    rw [ha1, hrdr]
    exact testBit_31_lor_free w
  · dsimp only
    rw [if_pos rfl]
  · intro h
    dsimp only
    rw [if_neg h]
    rw [hB2]
    dsimp only
    rw [if_pos rfl]
/-- Concrete instantiation of the C5 theorem on `C5wit`: realloc of the
16-byte block at 1032 to 24 bytes absorbs part of the free 64-byte
neighbour at 1056. -/
theorem C5_realloc_inplace_grow_witness :
    get_size C5wit.mem 1032 = 16 ∧ has_next_free C5wit.mem 1032 = true ∧
    (∃ stf, myrealloc 100 C5wit 1032 24 = some (stf, 1032) ∧
      get_size stf.mem 1032 = 24 ∧
      Nat.land (get_payloadsz stf.mem 1032) PREV_FREE
        = Nat.land (get_payloadsz C5wit.mem 1032) PREV_FREE ∧
      Nat.testBit (get_payloadsz stf.mem 1032) 1 = true ∧
      get_size stf.mem 1064 = 56 ∧
      get_prev_size stf.mem 1064 = 24 ∧
      Nat.testBit (get_payloadsz stf.mem 1064) 31 = true ∧
      stf.buckets (cal_bucket 56) = 1064 ∧
      (cal_bucket 64 ≠ cal_bucket 56 → stf.buckets (cal_bucket 64) = 0)) := by
  have h := C5_realloc_inplace_grow C5wit 1032 1056 16 64 24 24 100 (by decide) (by decide)
    (by decide) (by decide) (by decide) (by decide) (by decide) (by decide) (by decide)
    (by decide) (by decide) (by decide) (by decide) (by decide) (by decide) (by decide)
    (by decide) (by decide) (by decide)
  exact ⟨by decide, by decide, h⟩
theorem is_free_false (m : Mem) (p : Int) : is_free m p = false := by
  unfold is_free get_size
  have h : Nat.land (Nat.land (read32 m (hdr_for_payload p)) SIZE_MASK) FREE_MASK = 0 := by
    show (read32 m (hdr_for_payload p) &&& SIZE_MASK) &&& FREE_MASK = 0
    apply Nat.eq_of_testBit_eq
    intro i
    simp only [Nat.testBit_and, Nat.zero_testBit]
    by_cases hi : i = 31
    · subst hi
      have hm : Nat.testBit SIZE_MASK 31 = false := by decide
      rw [hm, Bool.and_false, Bool.false_and]
    · by_cases hlt : i < 32
      · have hf : Nat.testBit FREE_MASK i = false := by
          interval_cases i <;> first | rfl | (exact absurd rfl hi)
        rw [hf, Bool.and_false]
      · have hf : Nat.testBit FREE_MASK i = false :=
          Nat.testBit_lt_two_pow (by show FREE_MASK < 2 ^ i; calc
            FREE_MASK < 2 ^ 32 := by norm_num [FREE_MASK]
            _ ≤ 2 ^ i := Nat.pow_le_pow_right (by norm_num) (by omega))
        rw [hf, Bool.and_false]
  simp [h]

theorem mymalloc_tail_spec (st : AState) (curr : Int) :
    (mymalloc_tail st curr).2 = curr ∧
    get_size (mymalloc_tail st curr).1.mem curr = get_size st.mem curr := by
  unfold mymalloc_tail
  dsimp only
  simp only [is_free_false, Bool.false_eq_true, if_false]
  constructor
  · trivial
  · by_cases h1 : curr > st.min_block
    · rw [if_pos h1]
      by_cases h2 : curr < st.max_block
      · rw [if_pos h2]
        dsimp only
        unfold get_size get_prev get_prev_size hdr_for_payload
        rw [read32_write32_out _ _ _ _ (by omega)]
      · rw [if_neg h2]
        dsimp only
        unfold get_size get_prev get_prev_size hdr_for_payload
        rw [read32_write32_out _ _ _ _ (by omega)]
    · rw [if_neg h1]
      by_cases h2 : curr < st.max_block
      · rw [if_pos h2]
      · rw [if_neg h2]
theorem roundup_align_mod8 (x : Nat) : roundup x ALIGNMENT % 8 = 0 := by
  unfold roundup ALIGNMENT
  show ((x + (8 - 1)) % 2 ^ 64 &&& (2 ^ 64 - 8)) % 8 = 0
  have h0 : (8 : Nat) = 2 ^ 3 := by norm_num
  calc ((x + (8 - 1)) % 2 ^ 64 &&& (2 ^ 64 - 8)) % 8
      = ((x + (8 - 1)) % 2 ^ 64 &&& (2 ^ 64 - 8)) % 2 ^ 3 := by rw [← h0]
    _ = ((x + (8 - 1)) % 2 ^ 64 &&& (2 ^ 64 - 8)) &&& (2 ^ 3 - 1) :=
        (Nat.and_pow_two_sub_one_eq_mod _ 3).symm
    _ = (x + (8 - 1)) % 2 ^ 64 &&& ((2 ^ 64 - 8) &&& (2 ^ 3 - 1)) := Nat.and_assoc _ _ _
    _ = (x + (8 - 1)) % 2 ^ 64 &&& 0 := by
        have hz : ((2 : Nat) ^ 64 - 8) &&& (2 ^ 3 - 1) = 0 := by decide
        rw [hz]
    _ = 0 := Nat.and_zero _

theorem mymalloc_found_perfect (fuel : Nat) (st : AState) (curr : Int) (req : Nat)
    (hsz : get_size st.mem curr = req) (hreq31 : req < 2 ^ 31) (hreq4 : req % 4 = 0) :
    ∃ st', mymalloc_found fuel st curr req = some (st', curr) ∧
      get_size st'.mem curr = req := by
  unfold mymalloc_found
  dsimp only
  rw [hsz]
  rw [if_neg (show ¬(req - req ≥ 24) by omega)]
  rw [if_neg (show ¬(req ≠ req) by simp)]
  unfold set_payload_size hdr_for_payload
  have hrd : read32 (write32 st.mem (curr - 8) req) (curr - 8) = req := by
    rw [read32_write32_same]
    exact Nat.mod_eq_of_lt (by omega)
  rw [hrd]
  by_cases hclt : curr < st.max_block
  · rw [if_pos hclt]
    set m2 := write32 (write32 st.mem (curr - 8) req) (curr + (req : Int))
      (Nat.land (read32 (write32 st.mem (curr - 8) req) (curr + (req : Int))) 4294967294)
      with hm2
    obtain ⟨h1, h2⟩ := mymalloc_tail_spec { st with mem := m2 } curr
    have hpair : mymalloc_tail { st with mem := m2 } curr
        = ((mymalloc_tail { st with mem := m2 } curr).1, curr) := Prod.ext rfl h1
    rw [hpair]
    refine ⟨_, rfl, ?_⟩
    rw [h2]
    unfold get_size hdr_for_payload
    dsimp only
    rw [hm2]
    rw [read32_write32_out _ _ _ _ (by omega)]
    rw [read32_write32_same]
    rw [Nat.mod_eq_of_lt (by omega)]
    exact size_mask_land_self req hreq4 hreq31
  · rw [if_neg hclt]
    obtain ⟨h1, h2⟩ := mymalloc_tail_spec
      { st with mem := write32 st.mem (curr - 8) req } curr
    have hpair : mymalloc_tail { st with mem := write32 st.mem (curr - 8) req } curr
        = ((mymalloc_tail { st with mem := write32 st.mem (curr - 8) req } curr).1, curr) :=
      Prod.ext rfl h1
    rw [hpair]
    refine ⟨_, rfl, ?_⟩
    rw [h2]
    unfold get_size hdr_for_payload
    dsimp only
    rw [read32_write32_same]
    rw [Nat.mod_eq_of_lt (by omega)]
    exact size_mask_land_self req hreq4 hreq31
theorem mymalloc_found_split (fuel : Nat) (st : AState) (curr : Int) (req tmp : Nat)
    (hsz : get_size st.mem curr = tmp)
    (hfit : req + 24 ≤ tmp) (htmp31 : tmp < 2 ^ 31)
    (hreq8 : req % 8 = 0)
    (hr0 : curr + (req : Int) + 8 ≠ 0)
    (hrmax : curr + (req : Int) + 8 < st.max_block)
    (hrmin : curr + (req : Int) + 8 ≠ st.min_block)
    (hbw : st.buckets (cal_bucket (tmp - req - 8)) = 0) :
    ∃ st', mymalloc_found fuel st curr req = some (st', curr) ∧
      get_size st'.mem curr = req := by
  have htmp4 : tmp % 4 = 0 := by
    rw [← hsz]; unfold get_size; exact land_mask_mod_four _
  have hreq31 : req < 2 ^ 31 := by omega
  set w := tmp - req - 8 with hwdef
  have hw4 : w % 4 = 0 := by omega
  have hw31 : w < 2 ^ 31 := by omega
  have hw16 : 16 ≤ w := by omega
  unfold mymalloc_found
  dsimp only
  rw [hsz]
  rw [if_pos (show tmp - req ≥ 24 by omega)]
  unfold set_payload_size set_prevpayload_size hdr_for_payload
  have hnf1 : payload_for_hdr (get_next (write32 st.mem (curr - 8) req) curr)
      = curr + (req : Int) + 8 := by
    unfold payload_for_hdr get_next get_size hdr_for_payload
    rw [read32_write32_same]
    rw [Nat.mod_eq_of_lt (by omega)]
    rw [size_mask_land_self req (by omega) hreq31]
  rw [hnf1]
  have ha1 : curr + (req : Int) + 8 - 8 = curr + (req : Int) := by ring
  rw [ha1]
  have hsub : sub32 (tmp - req) 8 = w := by
    unfold sub32
    omega
  rw [hsub]
  set m1 := write32 st.mem (curr - 8) req with hm1
  set m2 := write32 m1 (curr + (req : Int)) w with hm2
  set m3 := write32 m2 (curr + (req : Int) + 4) req with hm3
  rw [if_pos (show curr + (req : Int) + 8 < st.max_block from hrmax)]
  have hgs3 : get_size m3 (curr + (req : Int) + 8) = w := by
    unfold get_size hdr_for_payload
    rw [ha1, hm3]
    rw [read32_write32_out _ _ _ _ (by omega)]
    rw [hm2, read32_write32_same]
    rw [Nat.mod_eq_of_lt (by omega)]
    exact size_mask_land_self w hw4 hw31
  have hgn3 : get_next m3 (curr + (req : Int) + 8) = curr + (req : Int) + 8 + (w : Int) := by
    unfold get_next
    rw [hgs3]
  rw [hgn3, hgs3]
  have hph : payload_for_hdr (curr + (req : Int) + 8 + (w : Int))
      = curr + (req : Int) + 8 + (w : Int) + 8 := rfl
  rw [hph]
  have ha3 : curr + (req : Int) + 8 + (w : Int) + 8 - 8 + 4
      = curr + (req : Int) + 12 + (w : Int) := by ring
  rw [ha3]
  set m4 := write32 m3 (curr + (req : Int) + 12 + (w : Int)) w with hm4
  unfold set_prevfree
  have hgs4 : get_size m4 (curr + (req : Int) + 8) = w := by
    unfold get_size hdr_for_payload
    rw [ha1, hm4]
    rw [read32_write32_out _ _ _ _ (by omega)]
    rw [hm3]
    rw [read32_write32_out _ _ _ _ (by omega)]
    rw [hm2, read32_write32_same]
    rw [Nat.mod_eq_of_lt (by omega)]
    exact size_mask_land_self w hw4 hw31
  have hgn4 : get_next m4 (curr + (req : Int) + 8) = curr + (req : Int) + 8 + (w : Int) := by
    unfold get_next
    rw [hgs4]
  rw [hgn4]
  set m5 := write32 m4 (curr + (req : Int) + 8 + (w : Int))
    (Nat.lor (read32 m4 (curr + (req : Int) + 8 + (w : Int))) PREV_FREE) with hm5
  rw [if_neg (show ¬(curr + (req : Int) + 8 > st.max_block) by omega)]
  set st4 := { st with mem := m5 } with hst4
  have hhdr4 : read32 st4.mem (curr + (req : Int) + 8 - 8) = w := by
    rw [ha1, hst4]
    dsimp only
    rw [hm5]
    rw [read32_write32_out _ _ _ _ (by omega)]
    rw [hm4]
    rw [read32_write32_out _ _ _ _ (by omega)]
    rw [hm3]
    rw [read32_write32_out _ _ _ _ (by omega)]
    rw [hm2, read32_write32_same]
    exact Nat.mod_eq_of_lt (by omega)
  have hq4 : Nat.land (read32 st4.mem (curr + (req : Int) + 8 - 4)) SIZE_MASK = req := by
    have ha4 : curr + (req : Int) + 8 - 4 = curr + (req : Int) + 4 := by ring
    rw [ha4, hst4]
    dsimp only
    rw [hm5]
    rw [read32_write32_out _ _ _ _ (by omega)]
    rw [hm4]
    rw [read32_write32_out _ _ _ _ (by omega)]
    rw [hm3, read32_write32_same]
    rw [Nat.mod_eq_of_lt (by omega)]
    exact size_mask_land_self req (by omega) hreq31
  have hfin := myfree_fresh_block st4 (curr + (req : Int) + 8) w req fuel hr0 hhdr4
    hw4 hw31 hw16 hq4 hrmax hrmin hbw
  rw [hfin]
  dsimp only
  have hfinal : ∀ s : AState, get_size s.mem curr = req →
      ∃ st', some (mymalloc_tail s curr) = some (st', curr) ∧
        get_size st'.mem curr = req := by
    intro s hs
    obtain ⟨h1, h2⟩ := mymalloc_tail_spec s curr
    exact ⟨(mymalloc_tail s curr).1, congrArg some (Prod.ext rfl h1), by rw [h2, hs]⟩
  apply hfinal
  have hb1 : curr + (req : Int) + 8 - 8 - (req : Int) - 8 = curr - 8 := by ring
  rw [hb1, ha1]
  unfold get_size hdr_for_payload
  dsimp only
  rw [read32_write64_out _ _ _ _ (by omega)]
  rw [read32_write64_out _ _ _ _ (by omega)]
  rw [read32_write32_out _ _ _ _ (by omega)]
  rw [read32_write32_same]
  have hrd4 : read32 (write32 st4.mem (curr + (req : Int) + 8 + (w : Int))
      (Nat.lor (read32 st4.mem (curr + (req : Int) + 8 + (w : Int))) PREV_FREE))
      (curr - 8) = req := by
    rw [read32_write32_out _ _ _ _ (by omega)]
    rw [hst4]
    dsimp only
    rw [hm5]
    rw [read32_write32_out _ _ _ _ (by omega)]
    rw [hm4]
    rw [read32_write32_out _ _ _ _ (by omega)]
    rw [hm3]
    rw [read32_write32_out _ _ _ _ (by omega)]
    rw [hm2]
    rw [read32_write32_out _ _ _ _ (by omega)]
    rw [hm1, read32_write32_same]
    exact Nat.mod_eq_of_lt (by omega)
  rw [hrd4]
  have hx_lt : Nat.lor req NEXT_FREE < 2 ^ 32 := by
    show req ||| NEXT_FREE < 2 ^ 32
    exact Nat.or_lt_two_pow (by omega) (by norm_num [NEXT_FREE])
  rw [Nat.mod_eq_of_lt hx_lt]
  rw [land_lor_flag _ _ (by decide)]
  exact size_mask_land_self req (by omega) hreq31
/-- Supporting lemma: an allocation served from the free lists (perfect-fit
or split-with-remainder path) returns the found block itself, stamped with
masked size exactly `req = max(16, roundup(n, 8))`; requests below 16 bytes
use `req = 16`.  (The claim-level size guarantee fails for huge requests,
see the size-truncation theorem.) -/
theorem mymalloc_freelist_hit_size (st st2 : AState) (curr : Int) (n req : Nat) (fuel : Nat)
    (hn : n ≠ 0)
    (hreq : (if roundup n ALIGNMENT < 16 then 16 else roundup n ALIGNMENT) = req)
    (hreq31 : req < 2 ^ 31)
    (hfind : get_free_space fuel st (cal_bucket (req % 2 ^ 32)) req
      = some (some (st2, curr))) :
    req = max 16 (roundup n ALIGNMENT) ∧
    (n < 16 → req = 16) ∧
    req % 8 = 0 ∧
    (get_size st2.mem curr = req →
      ∃ st', mymalloc fuel st n = some (st', curr) ∧
        get_size st'.mem curr = req) ∧
    (∀ tmp : Nat, get_size st2.mem curr = tmp → req + 24 ≤ tmp → tmp < 2 ^ 31 →
      curr + (req : Int) + 8 ≠ 0 →
      curr + (req : Int) + 8 < st2.max_block →
      curr + (req : Int) + 8 ≠ st2.min_block →
      st2.buckets (cal_bucket (tmp - req - 8)) = 0 →
      ∃ st', mymalloc fuel st n = some (st', curr) ∧
        get_size st'.mem curr = req) := by
  have hr8 : req % 8 = 0 := by
    by_cases h : roundup n ALIGNMENT < 16
    · rw [if_pos h] at hreq
      omega
    · rw [if_neg h] at hreq
      rw [← hreq]
      exact roundup_align_mod8 n
  have hred : mymalloc fuel st n = mymalloc_found fuel st2 curr req := by
    unfold mymalloc
    rw [if_neg hn]
    dsimp only
    rw [hreq, hfind]
  refine ⟨?_, ?_, hr8, ?_, ?_⟩
  · rw [← hreq]
    rcases Nat.lt_or_ge (roundup n ALIGNMENT) 16 with h | h
    · rw [if_pos h]
      omega
    · rw [if_neg (by omega)]
      omega
  · intro h15
    rw [← hreq]
    interval_cases n <;> decide
  · intro hsz
    obtain ⟨st', he, hg⟩ := mymalloc_found_perfect fuel st2 curr req hsz hreq31 (by omega)
    exact ⟨st', by rw [hred, he], hg⟩
  · intro tmp hsz hfit htmp31 h0 hmax hmin hbw
    obtain ⟨st', he, hg⟩ := mymalloc_found_split fuel st2 curr req tmp hsz hfit htmp31
      hr8 h0 hmax hmin hbw
    exact ⟨st', by rw [hred, he], hg⟩

/-- C8: refuted for huge requests.  The header's `payloadsz` is a 32-bit
field whose bit 31 is the `FREE` flag and whose size is read back through
`SIZE_MASK = 0x7ffffffc`, so a request whose rounded size reaches `2^31`
succeeds (the segment grants the pages and a non-NULL payload, address
8200, is returned) yet the block's masked size field is 0, far below
`max(16, roundup(n, 8)) = 2^31` — the `FREE` flag is even left set on the
returned block. -/
theorem C8_alloc_size_truncation :
    (0 : Nat) < 2 ^ 31 ∧
    max 16 (roundup (2 ^ 31) ALIGNMENT) = 2 ^ 31 ∧
    (mymalloc 100 C8big (2 ^ 31)).map Prod.snd = some 8200 ∧
    (8200 : Int) ≠ 0 ∧
    (8200 : Int) % 8 = 0 ∧
    get_size C8res.mem 8200 = 0 ∧
    Nat.testBit (get_payloadsz C8res.mem 8200) 31 = true ∧
    get_size C8res.mem 8200 < max 16 (roundup (2 ^ 31) ALIGNMENT) := by
  refine ⟨by decide, by decide, by decide, by decide, by decide, by decide, by decide,
    by decide⟩
